import Mathlib

/-!
Verification development for the three-tier query-resolution service
(semantic cache / pattern-based intent detection / LLM fallback).

The definitions below are a shallow embedding of the Python source:
* `backend/services.py` — `IntentDetectionService` (`INTENT_PATTERNS`,
  `detect_intent`) and `QueryOrchestrator.process_query`;
* `backend/cache.py` — `CacheManager` (`get_query_embedding`,
  `store_semantic_cache`, `find_similar_cached_query`, `get_cache_stats`,
  `clear_user_cache`).

Modelling conventions:
* Python floats are modelled as real numbers (`ℝ`); the statically declared
  pattern confidences, which are exact decimals compared against an exact
  decimal gate, are modelled as rationals (`ℚ`).
* The Redis store is modelled as explicit state (`CacheState`): a partial map
  from key strings to typed cache entries plus a per-key membership list for
  redis sets.  An absent record models a missing or TTL-expired key; on a live
  deployment entries always parse, so parse failures are not modelled.
* External collaborators (embedding model, credential lookup + SQL execution,
  the LLM) are oracle functions bundled in `OrchestratorEnv`; exceptions they
  raise in Python are `Except`/`Option` failure values here.
* `re.search` of the CPython `re` module is embedded as a fueled backtracking
  matcher over an explicit regex AST with Python's priority order (leftmost
  start position, left alternative first, greedy repetition); the six patterns
  of `INTENT_PATTERNS` are transcribed into that AST.  The queries handled are
  ASCII, so `str.lower`/`str.strip`/`\w`/`\s`/`\d` are modelled on ASCII.
-/

/-! ## Python string primitives -/

/-- Python `\s` / `str.strip` whitespace on ASCII: space, tab, newline,
carriage return, vertical tab, form feed. -/
def pyIsSpace (c : Char) : Bool :=
  c = ' ' || c = '\t' || c = '\n' || c = '\r' || c = '\x0b' || c = '\x0c'

/-- Python `str.lower` (ASCII range, as exercised by the sources). -/
def pyLower (s : String) : String :=
  String.mk (s.data.map Char.toLower)

/-- Strip `pyIsSpace` characters from both ends of a character list. -/
def stripChars (l : List Char) : List Char :=
  ((l.dropWhile pyIsSpace).reverse.dropWhile pyIsSpace).reverse

/-- Python `str.strip`. -/
def pyStrip (s : String) : String :=
  String.mk (stripChars s.data)

/-- Is `needle` a contiguous substring of `hay`?  Python's `in` on strings. -/
def listInfixOf (needle hay : List Char) : Bool :=
  (List.range (hay.length + 1)).any fun i => needle.isPrefixOf (hay.drop i)

/-- Python `needle in hay` for strings. -/
def strIn (needle hay : String) : Bool :=
  listInfixOf needle.data hay.data

/-- Python `str.replace` on character lists: replace non-overlapping
occurrences of `pat` left to right (`pat` non-empty for all call sites).
`fuel` decreases at each step; each replacement consumes at least one
character, so `s.length + 1` fuel always suffices. -/
def replaceChars (fuel : Nat) (s pat rep : List Char) : List Char :=
  match fuel, s with
  | 0, rest => rest
  | _ + 1, [] => []
  | f + 1, c :: rest =>
    if pat.isPrefixOf (c :: rest) then
      rep ++ replaceChars f ((c :: rest).drop pat.length) pat rep
    else
      c :: replaceChars f rest pat rep

/-- Python `s.replace(pat, rep)` (non-empty `pat`). -/
def pyReplace (s pat rep : String) : String :=
  String.mk (replaceChars (s.data.length + 1) s.data pat.data rep.data)

/-- Python `s.startswith(pre)`. -/
def pyStartsWith (s pre : String) : Bool :=
  pre.data.isPrefixOf s.data

/-! ## A backtracking regex engine (CPython `re.search` semantics)

`matchAt` returns every way a regex can match starting at position `pos`, in
CPython's backtracking priority order: the head of the returned list is the
match CPython commits to.  `fuel` strictly decreases at each recursive call;
`reFuel` below supplies enough for all patterns and subject strings. -/

inductive Regex : Type where
  | eps : Regex
  | cls (p : Char → Bool) : Regex
  | cat (r1 r2 : Regex) : Regex
  | alt (r1 r2 : Regex) : Regex
  | star (r : Regex) : Regex
  | group (idx : Nat) (r : Regex) : Regex
  | bol : Regex
  | eol : Regex

/-- Structural size of a regex, used to bound the matcher's fuel. -/
def regexSize : Regex → Nat
  | .eps => 1
  | .cls _ => 1
  | .cat r1 r2 => regexSize r1 + regexSize r2 + 1
  | .alt r1 r2 => regexSize r1 + regexSize r2 + 1
  | .star r => regexSize r + 1
  | .group _ r => regexSize r + 1
  | .bol => 1
  | .eol => 1

/-- Captured groups: `(index, captured characters)`, most recent capture
first (a later capture of the same group shadows an earlier one, as in
CPython). -/
abbrev Captures := List (Nat × List Char)

/-- All matches of `r` against `s` starting at `pos`, in priority order.
Each result is the end position together with the captures made. -/
def matchAt (fuel : Nat) (r : Regex) (s : List Char) (pos : Nat)
    (caps : Captures) : List (Nat × Captures) :=
  match fuel with
  | 0 => []
  | fuel + 1 =>
    match r with
    | .eps => [(pos, caps)]
    | .cls p =>
      match s.drop pos with
      | [] => []
      | c :: _ => if p c then [(pos + 1, caps)] else []
    | .cat r1 r2 =>
      (matchAt fuel r1 s pos caps).flatMap fun pc =>
        matchAt fuel r2 s pc.1 pc.2
    | .alt r1 r2 => matchAt fuel r1 s pos caps ++ matchAt fuel r2 s pos caps
    | .star r1 =>
      (((matchAt fuel r1 s pos caps).filter fun pc => pos < pc.1).flatMap
        fun pc => matchAt fuel (.star r1) s pc.1 pc.2) ++ [(pos, caps)]
    | .group i r1 =>
      (matchAt fuel r1 s pos caps).map fun pc =>
        (pc.1, (i, (s.drop pos).take (pc.1 - pos)) :: pc.2)
    | .bol => if pos = 0 then [(pos, caps)] else []
    | .eol => if pos = s.length then [(pos, caps)] else []

/-- Fuel bound: generous, linear in subject length times pattern size. -/
def reFuel (r : Regex) (s : List Char) : Nat :=
  (s.length + 2) * (regexSize r + 2) * 2 + 100

/-- The result of a successful `re.search`: the tuple `match.groups()`,
where entry `i` (0-based) is group `i+1`; a group that did not participate
is reported as the empty string (the patterns below always populate their
groups on a match). -/
structure ReMatch where
  groups : List String
  deriving Repr, DecidableEq

/-- Look up group `i` among the captures (most recent first). -/
def capLookup (caps : Captures) (i : Nat) : List Char :=
  (((caps.find? fun kc => kc.1 = i).map Prod.snd).getD [])

/-- CPython `re.search(r, s)`: try start positions left to right; at the
first position where the pattern matches, commit to the highest-priority
match and extract the `nGroups` capture groups. -/
def reSearch (r : Regex) (nGroups : Nat) (s : String) : Option ReMatch :=
  let chars := s.data
  (List.range (chars.length + 1)).findSome? fun pos =>
    match matchAt (reFuel r chars) r chars pos [] with
    | [] => none
    | (_, caps) :: _ =>
      some ⟨(List.range nGroups).map fun j => String.mk (capLookup caps (j + 1))⟩

/-! ### Regex constructors for the pattern library -/

/-- Single literal character. -/
def rchar (c : Char) : Regex := .cls fun x => x = c

/-- Literal string. -/
def rstr (s : String) : Regex := s.data.foldr (fun c acc => .cat (rchar c) acc) .eps

/-- Greedy `?`. -/
def ropt (r : Regex) : Regex := .alt r .eps

/-- Greedy `+`. -/
def rplus (r : Regex) : Regex := .cat r (.star r)

/-- Sequence. -/
def rseq (l : List Regex) : Regex := l.foldr .cat .eps

/-- `\s` -/
def rspace : Regex := .cls pyIsSpace

/-- `\w` (ASCII): letters, digits, underscore. -/
def isWordChar (c : Char) : Bool := c.isAlphanum || c = '_'

/-- `\w` -/
def rword : Regex := .cls isWordChar

/-- `\d` -/
def rdigit : Regex := .cls Char.isDigit

/-! ## The pattern library (`IntentDetectionService.INTENT_PATTERNS`) -/

/-- `models.IntentPattern`, extended with the AST transcription of the
`pattern` string and its number of capture groups. -/
structure IntentPattern where
  pattern : String
  regex : Regex
  nGroups : Nat
  table_hint : String
  sql_template : String
  confidence_score : ℚ

/-- `^(?:list|show|get|find)\s+(?:all\s+)?([\w_]+)$` -/
def patListShow : IntentPattern where
  pattern := "^(?:list|show|get|find)\\s+(?:all\\s+)?([\\w_]+)$"
  regex := rseq [.bol,
    .alt (rstr "list") (.alt (rstr "show") (.alt (rstr "get") (rstr "find"))),
    rplus rspace,
    ropt (rseq [rstr "all", rplus rspace]),
    .group 1 (rplus rword),
    .eol]
  nGroups := 1
  table_hint := "\\1"
  sql_template := "SELECT * FROM \x7btable\x7d LIMIT 100;"
  confidence_score := 0.95

/-- `show\s+(?:all\s+)?(?:records?|rows?|data)\s+from\s+(\w+)` -/
def patShowFrom : IntentPattern where
  pattern := "show\\s+(?:all\\s+)?(?:records?|rows?|data)\\s+from\\s+(\\w+)"
  regex := rseq [rstr "show", rplus rspace,
    ropt (rseq [rstr "all", rplus rspace]),
    .alt (rseq [rstr "record", ropt (rchar 's')])
      (.alt (rseq [rstr "row", ropt (rchar 's')]) (rstr "data")),
    rplus rspace, rstr "from", rplus rspace,
    .group 1 (rplus rword)]
  nGroups := 1
  table_hint := "\\1"
  sql_template := "SELECT * FROM \x7btable\x7d LIMIT 100;"
  confidence_score := 0.9

/-- `count\s+(?:records?|rows?)\s+in\s+(\w+)` -/
def patCount : IntentPattern where
  pattern := "count\\s+(?:records?|rows?)\\s+in\\s+(\\w+)"
  regex := rseq [rstr "count", rplus rspace,
    .alt (rseq [rstr "record", ropt (rchar 's')])
      (rseq [rstr "row", ropt (rchar 's')]),
    rplus rspace, rstr "in", rplus rspace,
    .group 1 (rplus rword)]
  nGroups := 1
  table_hint := "\\1"
  sql_template := "SELECT COUNT(*) as count FROM \x7btable\x7d;"
  confidence_score := 0.9

/-- `list\s+(?:all\s+)?(?:tables?|schemas?)` -/
def patListTables : IntentPattern where
  pattern := "list\\s+(?:all\\s+)?(?:tables?|schemas?)"
  regex := rseq [rstr "list", rplus rspace,
    ropt (rseq [rstr "all", rplus rspace]),
    .alt (rseq [rstr "table", ropt (rchar 's')])
      (rseq [rstr "schema", ropt (rchar 's')])]
  nGroups := 0
  table_hint := ""
  sql_template := "LIST_TABLES"
  confidence_score := 0.95

/-- `(?:find|search|get)\s+(\w+)\s+where\s+(\w+)\s*=\s*['\"]?([^'\"]+)['\"]?` -/
def patFindWhere : IntentPattern where
  pattern := "(?:find|search|get)\\s+(\\w+)\\s+where\\s+(\\w+)\\s*=\\s*[\x27\"]?([^\x27\"]+)[\x27\"]?"
  regex := rseq [.alt (rstr "find") (.alt (rstr "search") (rstr "get")),
    rplus rspace, .group 1 (rplus rword),
    rplus rspace, rstr "where", rplus rspace, .group 2 (rplus rword),
    .star rspace, rchar '=', .star rspace,
    ropt (.alt (rchar '\x27') (rchar '"')),
    .group 3 (rplus (.cls fun c => !(c = '\x27' || c = '"'))),
    ropt (.alt (rchar '\x27') (rchar '"'))]
  nGroups := 3
  table_hint := "\\1"
  sql_template := "SELECT * FROM \x7btable\x7d WHERE \x7bcolumn\x7d ILIKE \x27\x7bvalue\x7d\x27 LIMIT 50;"
  confidence_score := 0.8

/-- `(?:top|first)\s+(\d+)\s+(?:records?|rows?)\s+from\s+(\w+)` -/
def patTopN : IntentPattern where
  pattern := "(?:top|first)\\s+(\\d+)\\s+(?:records?|rows?)\\s+from\\s+(\\w+)"
  regex := rseq [.alt (rstr "top") (rstr "first"), rplus rspace,
    .group 1 (rplus rdigit), rplus rspace,
    .alt (rseq [rstr "record", ropt (rchar 's')])
      (rseq [rstr "row", ropt (rchar 's')]),
    rplus rspace, rstr "from", rplus rspace,
    .group 2 (rplus rword)]
  nGroups := 2
  table_hint := "\\2"
  sql_template := "SELECT * FROM \x7btable\x7d LIMIT \x7blimit\x7d;"
  confidence_score := 0.85

/-- `IntentDetectionService.INTENT_PATTERNS`, in declaration order. -/
def INTENT_PATTERNS : List IntentPattern :=
  [patListShow, patShowFrom, patCount, patListTables, patFindWhere, patTopN]

/-! ## Intent detection (`IntentDetectionService.detect_intent`) -/

/-- The dictionary `detect_intent` returns: either a list-tables action
(`\x7baction, db, confidence, source\x7d`) or an executable query
(`\x7bdb, table, query, confidence, source\x7d`); `source` is always the
constant `"intent_detection"`. -/
inductive Intent where
  | listTables (db : Option String) (confidence : ℚ)
  | execute (db table sqlQuery : String) (confidence : ℚ)
  deriving Repr, DecidableEq

/-- The `confidence` entry of the intent dictionary. -/
def Intent.confidence : Intent → ℚ
  | .listTables _ c => c
  | .execute _ _ _ c => c

/-- Substitute regex groups into the table hint:
`table_hint.replace(f"\\{i}", group)` for each group, in order, applied
only when the hint and the group tuple are both non-empty. -/
def substHint (hint : String) (groups : List String) : String :=
  if hint ≠ "" ∧ groups ≠ [] then
    groups.enum.foldl (fun h ig => pyReplace h ("\\" ++ toString (ig.1 + 1)) ig.2) hint
  else hint

/-- One pass of Python `str.format` over the four placeholder names used by
the SQL templates; substituted text is not rescanned, as in CPython. -/
def pyFormatGo (fuel : Nat) (cs : List Char) (look : String → String) : List Char :=
  match fuel, cs with
  | 0, rest => rest
  | _ + 1, [] => []
  | f + 1, c :: rest =>
    if c = '\x7b' then
      let key := rest.takeWhile fun x => x ≠ '\x7d'
      let rest2 := (rest.dropWhile fun x => x ≠ '\x7d').drop 1
      (look (String.mk key)).data ++ pyFormatGo f rest2 look
    else c :: pyFormatGo f rest look

/-- `template.format(table=…, column=…, value=…, limit=…)`. -/
def pyFormat (template table column value limit : String) : String :=
  String.mk (pyFormatGo (template.data.length + 1) template.data fun k =>
    if k = "table" then table
    else if k = "column" then column
    else if k = "value" then value
    else if k = "limit" then limit
    else "")

/-- The table-resolution test:
`table_hint.lower() in table_name.lower() or table_name.lower() in table_hint.lower()`. -/
def tableHintMatch (hint tableName : String) : Bool :=
  strIn (pyLower hint) (pyLower tableName) || strIn (pyLower tableName) (pyLower hint)

/-- A tenant's schema view: database alias → (table name → column names),
as association lists in Python dict iteration order. -/
abbrev SchemaView := List (String × List (String × List String))

/-- The flattened `(db_name, table_name, columns)` context list. -/
def allTablesOf (all_schemas : SchemaView) : List (String × String × List String) :=
  all_schemas.flatMap fun dbt => dbt.2.map fun tc => (dbt.1, tc.1, tc.2)

/-- The body of one iteration of the `for pattern in cls.INTENT_PATTERNS`
loop: `some` when the loop returns, `none` when it falls through to the next
pattern (no regex match, or no table resolves). -/
def tryPattern (p : IntentPattern) (query_lower : String)
    (all_schemas : SchemaView) (all_tables : List (String × String × List String)) :
    Option Intent :=
  match reSearch p.regex p.nGroups query_lower with
  | none => none
  | some m =>
    if p.sql_template = "LIST_TABLES" then
      let found := all_schemas.find? fun dbt => strIn (pyLower dbt.1) query_lower
      let db_name : Option String :=
        match found with
        | some dbt => if dbt.1 = "" then all_schemas.head?.map Prod.fst else some dbt.1
        | none => all_schemas.head?.map Prod.fst
      some (.listTables db_name p.confidence_score)
    else
      let hint := substHint p.table_hint m.groups
      match all_tables.find? fun dtc => tableHintMatch hint dtc.2.1 with
      | some (db, tbl, _) =>
        let sql := pyFormat p.sql_template tbl
          (if 2 ≤ m.groups.length then m.groups.getD 1 "" else "id")
          (if 3 ≤ m.groups.length then m.groups.getD 2 "" else "")
          (if pyStartsWith p.pattern "(?:top|first)" then m.groups.getD 0 "" else "100")
        some (.execute db tbl sql p.confidence_score)
      | none => none

/-- The pattern loop: first pattern that both matches and resolves wins. -/
def detectGo (pats : List IntentPattern) (query_lower : String)
    (all_schemas : SchemaView) (all_tables : List (String × String × List String)) :
    Option Intent :=
  match pats with
  | [] => none
  | p :: rest =>
    match tryPattern p query_lower all_schemas all_tables with
    | some r => some r
    | none => detectGo rest query_lower all_schemas all_tables

/-- `IntentDetectionService.detect_intent(query, all_schemas)`. -/
def detect_intent (query : String) (all_schemas : SchemaView) : Option Intent :=
  let query_lower := pyStrip (pyLower query)
  detectGo INTENT_PATTERNS query_lower all_schemas (allTablesOf all_schemas)

/-! ## Responses

The response dictionaries built by `QueryOrchestrator.process_query`: a
payload body (`process_list_tables_request` / `process_sql_query_request`
output) plus the annotation keys the orchestrator writes
(`source`, `confidence`, `similarity_score`, `original_cached_query`).
A key absent from the dictionary is `none`. -/

inductive RespBody where
  | listTables (inferred_db_name : Option String) (data : List String)
  | sqlResult (inferred_db_name inferred_table : Option String)
      (sql_query : String) (rows_returned : Nat) (data : List String)

structure Response where
  body : RespBody
  source : Option String := none
  confidence : Option ℚ := none
  similarity_score : Option ℝ := none
  original_cached_query : Option String := none

instance : Inhabited Response := ⟨{ body := .listTables none [] }⟩

/-! ## The semantic cache (`backend/cache.py`, `CacheManager`)

Redis is modelled as `CacheState`: `records` is `GET` on string keys with
typed `SemanticCacheEntry` payloads (a `none` is a missing or TTL-expired
key), `index` is `SMEMBERS` on string keys, as a list in iteration order.
The sha256-prefix fingerprint `hashlib.sha256(query.encode()).hexdigest()[:16]`
is an oracle parameter `hash16`; its output is hexadecimal, hence free of
`:` (used by the key-disambiguation lemmas). -/

/-- `models.SemanticCacheEntry`. -/
structure SemanticCacheEntry where
  query : String
  embedding : List ℝ
  response : Response
  timestamp : ℝ
  user_id : String
  hit_count : Nat := 1

instance : Inhabited SemanticCacheEntry :=
  ⟨{ query := "", embedding := [], response := default, timestamp := 0, user_id := "" }⟩

structure CacheState where
  records : String → Option SemanticCacheEntry
  index : String → List String

/-- The all-empty Redis state. -/
def emptyCache : CacheState := { records := fun _ => none, index := fun _ => [] }

/-- `f"semantic_cache:{user_id}:{hash16(query)}"` with the fingerprint
already applied. -/
def cacheKeyOf (user_id fingerprint : String) : String :=
  "semantic_cache:" ++ user_id ++ ":" ++ fingerprint

/-- `f"semantic_index:{user_id}"`. -/
def indexKeyOf (user_id : String) : String :=
  "semantic_index:" ++ user_id

/-- Redis `SADD` on the list model: append if absent. -/
def saddList (l : List String) (k : String) : List String :=
  if l.contains k then l else l ++ [k]

/-- `CacheManager.get_query_embedding` — encode the lower-cased, stripped
query.  `encode` is the sentence-transformer oracle; a `none` covers both a
missing model and an encoding failure. -/
def get_query_embedding (encode : String → Option (List ℝ)) (query : String) :
    Option (List ℝ) :=
  encode (pyStrip (pyLower query))

/-- `CacheManager.store_semantic_cache(user_id, query, embedding, response)`
at wall-clock time `now`: `SETEX` the entry at its fingerprint key, `SADD`
the key into the tenant's index (TTL effects are not part of the state). -/
def store_semantic_cache (hash16 : String → String) (now : ℝ)
    (user_id query : String) (embedding : List ℝ) (response : Response)
    (s : CacheState) : CacheState :=
  let entry : SemanticCacheEntry :=
    { query := query, embedding := embedding, response := response,
      timestamp := now, user_id := user_id }
  let cache_key := cacheKeyOf user_id (hash16 query)
  { records := fun k => if k = cache_key then some entry else s.records k,
    index := fun k =>
      if k = indexKeyOf user_id then saddList (s.index (indexKeyOf user_id)) cache_key
      else s.index k }

/-- `settings.SEMANTIC_SIMILARITY_THRESHOLD` (default `0.88`). -/
noncomputable def SEMANTIC_SIMILARITY_THRESHOLD : ℝ := 0.88

/-- `settings.INTENT_CONFIDENCE_THRESHOLD` (default `0.8`). -/
def INTENT_CONFIDENCE_THRESHOLD : ℚ := 0.8

/-- Dot product of float vectors (`np.dot` on the zipped prefix). -/
noncomputable def dotList (u v : List ℝ) : ℝ :=
  (List.zipWith (fun a b => a * b) u v).sum

/-- `sklearn.metrics.pairwise.cosine_similarity` on two row vectors:
normalized dot product; a zero-norm vector stays zero (sklearn maps zero
norms to 1, and `ℝ` division by zero is zero — same result). -/
noncomputable def cosine_similarity (u v : List ℝ) : ℝ :=
  dotList u v / (Real.sqrt (dotList u u) * Real.sqrt (dotList v v))

open Classical in
/-- `np.argmax`: index of the first occurrence of the maximum. -/
noncomputable def argmaxIdx : List ℝ → Nat
  | [] => 0
  | x :: xs =>
    if xs = [] then 0
    else if xs.getD (argmaxIdx xs) 0 > x then argmaxIdx xs + 1 else 0

/-- The dictionary `find_similar_cached_query` returns on a hit. -/
structure SimilarMatch where
  response : Response
  similarity : ℝ
  original_query : String

open Classical in
/-- `CacheManager.find_similar_cached_query(user_id, query, query_embedding)`
(the `backend/cache.py` revision): read the tenant's index, `GET` every key,
keep the entries that are still present (`entries`), take the argmax of the
cosine similarities, and on `best_similarity > SEMANTIC_SIMILARITY_THRESHOLD`
re-`SETEX` the best entry with `hit_count + 1` — at `cached_keys[best_idx]`,
the *unfiltered* key list indexed by the *filtered* argmax, exactly as the
source does — and return the match.  Result: the returned dictionary (or
`none`) together with the state after the hit-count write. -/
noncomputable def find_similar_cached_query (user_id query : String)
    (query_embedding : List ℝ) (s : CacheState) :
    Option SimilarMatch × CacheState :=
  let cached_keys := s.index (indexKeyOf user_id)
  if cached_keys.isEmpty then (none, s)
  else
    let cached_data_list := cached_keys.map s.records
    let entries := cached_data_list.filterMap id
    if entries.isEmpty then (none, s)
    else
      let similarities := entries.map fun e => cosine_similarity query_embedding e.embedding
      let best_idx := argmaxIdx similarities
      let best_similarity := similarities.getD best_idx 0
      if best_similarity > SEMANTIC_SIMILARITY_THRESHOLD then
        let best_entry := entries.getD best_idx default
        let s' : CacheState :=
          { s with records := fun k =>
              if k = cached_keys.getD best_idx "" then
                some { best_entry with hit_count := best_entry.hit_count + 1 }
              else s.records k }
        (some ⟨best_entry.response, best_similarity, best_entry.query⟩, s')
      else (none, s)

/-- One `cache_entries` element of `get_cache_stats`. -/
structure CacheStatEntry where
  query : String
  hit_count : Nat
  timestamp : ℝ
  response_type : String

/-- `response.get("action", "query")`: list-tables payloads carry the
`action` key, executed-query payloads do not. -/
def responseTypeOf (r : Response) : String :=
  match r.body with
  | .listTables _ _ => "list_tables"
  | .sqlResult _ _ _ _ _ => "query"

/-- Stable insertion into a hit-count-descending list (model of
`list.sort(key=hit_count, reverse=True)`). -/
def insertByHitCount (e : CacheStatEntry) : List CacheStatEntry → List CacheStatEntry
  | [] => [e]
  | x :: xs =>
    if x.hit_count < e.hit_count then e :: x :: xs else x :: insertByHitCount e xs

/-- Sort by hit count, descending, stable. -/
def sortByHitCountDesc (l : List CacheStatEntry) : List CacheStatEntry :=
  l.foldr insertByHitCount []

/-- `CacheManager.get_cache_stats(user_id)`:
`total_cached_queries = len(cached_keys)` (expired keys included) and the
live entries, sorted by hit count descending.  Read-only. -/
def get_cache_stats (user_id : String) (s : CacheState) :
    Nat × List CacheStatEntry :=
  let cached_keys := s.index (indexKeyOf user_id)
  let entries := (cached_keys.filterMap s.records).map fun e =>
    ⟨e.query, e.hit_count, e.timestamp, responseTypeOf e.response⟩
  (cached_keys.length, sortByHitCountDesc entries)

/-- `CacheManager.clear_user_cache(user_id)`: `DELETE` every key in the
tenant's index, then the index itself; returns `cleared_count`. -/
def clear_user_cache (user_id : String) (s : CacheState) : Nat × CacheState :=
  let cached_keys := s.index (indexKeyOf user_id)
  (cached_keys.length,
    { records := fun k => if cached_keys.contains k then none else s.records k,
      index := fun k => if k = indexKeyOf user_id then [] else s.index k })

/-! ## The orchestrator (`backend/services.py`, `QueryOrchestrator`)

External collaborators are oracle functions for one fixed request:
* `encode` — the sentence-transformer (`none` = model missing or failed);
* `listTablesExec` — `QueryProcessingService.process_list_tables_request`
  for this user: credential lookup plus table listing, `Except.error` for
  any exception it raises (missing db name included, Python passes `None`
  through);
* `sqlExec` — `process_sql_query_request` for this user: credential lookup
  plus statement execution, returning `(rows_returned, data)`;
* `llm` — `LLMService.process_with_llm`: the parsed LLM JSON or the wrapped
  exception text. -/

/-- The parsed LLM output dictionary: `action == "list_tables"`, or a dict
with a `query` key, or anything else (unrecognized). -/
inductive LlmOut where
  | listTables (db : Option String)
  | query (db table : Option String) (sql : String)
  | other

structure OrchestratorEnv where
  schemas : SchemaView
  encode : String → Option (List ℝ)
  listTablesExec : Option String → Except String (List String)
  sqlExec : Option String → Option String → String → Except String (Nat × List String)
  llm : Except String LlmOut
  now : ℝ

/-- Execute a pattern-tier intent (steps 4a/4b): the `list_tables` branch
calls `process_list_tables_request`, the `query` branch
`process_sql_query_request`; any raised exception is the `Except.error`. -/
def execIntent (env : OrchestratorEnv) (intent : Intent) : Except String RespBody :=
  match intent with
  | .listTables db _ =>
    (env.listTablesExec db).map fun tables => .listTables db tables
  | .execute db table sql _ =>
    (env.sqlExec (some db) (some table) sql).map fun rd =>
      .sqlResult (some db) (some table) sql rd.1 rd.2

/-- Dispatch on the LLM output exactly as lines 281–293 of
`backend/services.py`: `list_tables` action, `query` key, or the
"unrecognized response format" exception. -/
def processLlmOut (env : OrchestratorEnv) (out : LlmOut) : Except String RespBody :=
  match out with
  | .listTables db =>
    (env.listTablesExec db).map fun tables => .listTables db tables
  | .query db table sql =>
    (env.sqlExec db table sql).map fun rd => .sqlResult db table sql rd.1 rd.2
  | .other => .error "LLM returned an unrecognized response format"

/-- Step 5: the LLM fallback tier.  `emb` is the embedding computed at
step 2 (`none` = unavailable → no cache write). -/
def step5 (env : OrchestratorEnv) (hash16 : String → String) (cache : CacheState)
    (user_id user_query : String) (emb : Option (List ℝ)) :
    Except String Response × CacheState :=
  match env.llm with
  | .error e => (.error ("An error occurred during LLM processing: " ++ e), cache)
  | .ok out =>
    match processLlmOut env out with
    | .error e => (.error ("Error processing LLM response: " ++ e), cache)
    | .ok body =>
      let final_response : Response := { body := body, source := some "llm_fallback" }
      let cache' := match emb with
        | some e => store_semantic_cache hash16 env.now user_id user_query e final_response cache
        | none => cache
      (.ok final_response, cache')

/-- Steps 4–5: pattern-tier intent detection behind the confidence gate,
falling through to `step5` when no intent is produced, the gate rejects it,
or its execution raises. -/
def step45 (env : OrchestratorEnv) (hash16 : String → String) (cache : CacheState)
    (user_id user_query : String) (emb : Option (List ℝ)) :
    Except String Response × CacheState :=
  match detect_intent user_query env.schemas with
  | some intent =>
    if intent.confidence > INTENT_CONFIDENCE_THRESHOLD then
      match execIntent env intent with
      | .ok body =>
        let final_response : Response :=
          { body := body, source := some "intent_detection",
            confidence := some intent.confidence }
        let cache' := match emb with
          | some e => store_semantic_cache hash16 env.now user_id user_query e final_response cache
          | none => cache
        (.ok final_response, cache')
      | .error _ => step5 env hash16 cache user_id user_query emb
    else step5 env hash16 cache user_id user_query emb
  | none => step5 env hash16 cache user_id user_query emb

open Classical in
/-- `QueryOrchestrator.process_query(user_id, user_query, …)`: the
three-tier ladder.  Result: what the caller sees (`Except.error` = the
exception raised) together with the final Redis state. -/
noncomputable def process_query (env : OrchestratorEnv) (hash16 : String → String)
    (cache : CacheState) (user_id user_query : String) :
    Except String Response × CacheState :=
  if env.schemas.isEmpty then
    (.error "No database connections found. Please add a database configuration first.", cache)
  else
    let query_embedding := get_query_embedding env.encode user_query
    match query_embedding with
    | some e =>
      match find_similar_cached_query user_id user_query e cache with
      | (some m, cache') =>
        (.ok { m.response with
                source := some "semantic_cache",
                similarity_score := some m.similarity,
                original_cached_query := some m.original_query }, cache')
      | (none, cache') => step45 env hash16 cache' user_id user_query (some e)
    | none => step45 env hash16 cache user_id user_query none

/-- A record live (present, not expired) in tenant `u`'s index. -/
def IsLiveEntry (s : CacheState) (u : String) (e : SemanticCacheEntry) : Prop :=
  ∃ k ∈ s.index (indexKeyOf u), s.records k = some e

/-- Well-formedness of the Redis state: every tenant's index references only
keys built by `store_semantic_cache` for that tenant, whose fingerprint part
is colon-free (sha256 hex digests contain no `:`).  Holds for the empty
state and is preserved by every cache operation. -/
def WFState (s : CacheState) : Prop :=
  ∀ u k, k ∈ s.index (indexKeyOf u) →
    ∃ f, k = cacheKeyOf u f ∧ ':' ∉ f.data

/-- The live entries scanned by `find_similar_cached_query`: the records at
the tenant's index keys that are still present, in index order (the
`entries` list of the source). -/
def liveEntries (s : CacheState) (u : String) : List SemanticCacheEntry :=
  List.filterMap id ((s.index (indexKeyOf u)).map s.records)

/-- `best_idx` of `find_similar_cached_query` for query embedding `E`. -/
noncomputable def bestIdxOf (E : List ℝ) (s : CacheState) (u : String) : Nat :=
  argmaxIdx ((liveEntries s u).map fun e => cosine_similarity E e.embedding)

/-- `best_similarity` of `find_similar_cached_query`. -/
noncomputable def bestSimOf (E : List ℝ) (s : CacheState) (u : String) : ℝ :=
  ((liveEntries s u).map fun e => cosine_similarity E e.embedding).getD (bestIdxOf E s u) 0

/-- `best_entry` of `find_similar_cached_query`. -/
noncomputable def bestEntryOf (E : List ℝ) (s : CacheState) (u : String) :
    SemanticCacheEntry :=
  (liveEntries s u).getD (bestIdxOf E s u) default

/-- An opaque response payload used by the concrete witnesses. -/
def respFix : Response := { body := .listTables none [] }

/-- A concrete cached entry for tenant `t` with unit embedding `[1]`. -/
def entryFix : SemanticCacheEntry :=
  { query := "p", embedding := [1], response := respFix, timestamp := 0, user_id := "t" }

/-- A concrete one-record cache state for tenant `t`. -/
def cacheFix : CacheState :=
  { records := fun k => if k = "k1" then some entryFix else none,
    index := fun k => if k = indexKeyOf "t" then ["k1"] else [] }

/-- Failing-input fixture: a record of tenant `t` with 5 accumulated hits. -/
def entryBug2 : SemanticCacheEntry :=
  { query := "q2", embedding := [1, 0], response := respFix, timestamp := 0,
    user_id := "t", hit_count := 5 }

/-- Failing-input fixture: a fresh record of tenant `t`. -/
def entryBug3 : SemanticCacheEntry :=
  { query := "q3", embedding := [0, 1], response := respFix, timestamp := 0,
    user_id := "t", hit_count := 1 }

/-- Failing-input fixture: tenant `t`'s index holds three keys, the first of
which (`k1`) has expired (its record is gone, a routine TTL event), while
`k2` and `k3` are live. -/
def cacheBug : CacheState :=
  { records := fun k =>
      if k = "k2" then some entryBug2
      else if k = "k3" then some entryBug3
      else none,
    index := fun k => if k = indexKeyOf "t" then ["k1", "k2", "k3"] else [] }

/-- A constant stand-in for the sha256-prefix fingerprint, used by the
concrete witnesses (hex output, hence colon-free). -/
def hashConst : String → String := fun _ => "ab"

/-- Concrete witness environment: no embedding model, SQL execution
succeeds — the pattern tier answers. -/
def envPatternOk : OrchestratorEnv where
  schemas := [("db1", [("e", ["id"])])]
  encode := fun _ => none
  listTablesExec := fun _ => .error "x"
  sqlExec := fun _ _ _ => .ok (1, ["row"])
  llm := .error "down"
  now := 0

/-- Concrete witness environment: no embedding model, SQL execution raises,
the LLM resolves a list-tables action. -/
def envPatternFail : OrchestratorEnv where
  schemas := [("db1", [("e", ["id"])])]
  encode := fun _ => none
  listTablesExec := fun _ => .ok ["e"]
  sqlExec := fun _ _ _ => .error "relation does not exist"
  llm := .ok (.listTables (some "db1"))
  now := 0

/-- Concrete witness environment for the round-trip scenario: the encoder
embeds the (normalized) query "q" as the unit vector `[1]`. -/
def envRoundTrip : OrchestratorEnv where
  schemas := [("db1", [("e", ["id"])])]
  encode := fun s => if s = "q" then some [1] else none
  listTablesExec := fun _ => .error "x"
  sqlExec := fun _ _ _ => .error "x"
  llm := .error "down"
  now := 0

/-! # Theorems -/

/-! ## Pattern-loop structure -/

theorem detectGo_append (l₁ l₂ : List IntentPattern) (ql : String)
    (sch : SchemaView) (tbls : List (String × String × List String))
    (h : ∀ p ∈ l₁, tryPattern p ql sch tbls = none) :
    detectGo (l₁ ++ l₂) ql sch tbls = detectGo l₂ ql sch tbls := by
  induction l₁ with
  | nil => rfl
  | cons p rest ih =>
    have hp := h p (List.mem_cons_self p rest)
    simp only [List.cons_append, detectGo, hp]
    exact ih fun p2 h2 => h p2 (List.mem_cons_of_mem p h2)

theorem detectGo_cons_some (p : IntentPattern) (rest : List IntentPattern)
    (ql : String) (sch : SchemaView) (tbls : List (String × String × List String))
    (r : Intent) (hp : tryPattern p ql sch tbls = some r) :
    detectGo (p :: rest) ql sch tbls = some r := by
  simp only [detectGo, hp]

theorem tryPattern_execute (p : IntentPattern) (ql : String) (sch : SchemaView)
    (tbls : List (String × String × List String)) (m : ReMatch)
    (db tbl : String) (cols : List String)
    (hsearch : reSearch p.regex p.nGroups ql = some m)
    (htempl : ¬p.sql_template = "LIST_TABLES")
    (hfind : tbls.find? (fun dtc => tableHintMatch (substHint p.table_hint m.groups) dtc.2.1)
      = some (db, tbl, cols)) :
    tryPattern p ql sch tbls = some (.execute db tbl
      (pyFormat p.sql_template tbl
        (if 2 ≤ m.groups.length then m.groups.getD 1 "" else "id")
        (if 3 ≤ m.groups.length then m.groups.getD 2 "" else "")
        (if pyStartsWith p.pattern "(?:top|first)" then m.groups.getD 0 "" else "100"))
      p.confidence_score) := by
  unfold tryPattern
  rw [hsearch]
  simp only [htempl, if_false, hfind]

/-! ## C7 — deterministic, declaration-ordered pattern matching -/

/-- C7.  `IntentDetectionService.detect_intent` is deterministic and
respects declaration order: patterns are tried in the declared order of
`INTENT_PATTERNS` against the lower-cased, trimmed query; the first pattern
that produces an intent (regex match plus successful table/database
resolution) wins, uninfluenced by later patterns; and two runs on identical
`(query, schema)` input return the identical intent. -/
theorem detect_intent_first_pattern_wins (query : String) (schemas : SchemaView)
    (pre post : List IntentPattern) (p : IntentPattern) (r : Intent)
    (hsplit : INTENT_PATTERNS = pre ++ p :: post)
    (hpre : ∀ p2 ∈ pre,
      tryPattern p2 (pyStrip (pyLower query)) schemas (allTablesOf schemas) = none)
    (hp : tryPattern p (pyStrip (pyLower query)) schemas (allTablesOf schemas) = some r) :
    detect_intent query schemas = some r ∧
    (∀ query2 schemas2, query2 = query → schemas2 = schemas →
      detect_intent query2 schemas2 = detect_intent query schemas) := by
  constructor
  · unfold detect_intent
    rw [hsplit, detectGo_append _ _ _ _ _ hpre, detectGo_cons_some _ _ _ _ _ _ hp]
  · intro query2 schemas2 hq hs
    rw [hq, hs]

/-- C7 witness: on "count records in employees" over a schema with table
`employees`, the first two declared patterns fail and the third (the count
pattern) wins, so `detect_intent` returns its intent. -/
theorem detect_intent_first_pattern_wins_witness :
    detect_intent "count records in employees" [("db1", [("employees", ["id"])])] =
      some (.execute "db1" "employees" "SELECT COUNT(*) as count FROM employees;" 0.9) :=
  (detect_intent_first_pattern_wins "count records in employees"
    [("db1", [("employees", ["id"])])]
    [patListShow, patShowFrom] [patListTables, patFindWhere, patTopN] patCount
    (.execute "db1" "employees" "SELECT COUNT(*) as count FROM employees;" 0.9)
    rfl
    (by
      intro p2 h2
      simp only [List.mem_cons, List.not_mem_nil, or_false] at h2
      rcases h2 with rfl | rfl
      · rfl
      · rfl)
    rfl).1

/-! ## C8 — the two concrete scenario queries -/

/-- C8 counterexample.  The claim quantifies over *any* schema view
containing a table named `employees`; but table resolution scans the
flattened table list in order and accepts the first name in (case-
insensitive) substring relation with the hint.  With a table `emp` listed
before `employees`, the query "show all records from employees" resolves to
`emp`, producing a different statement than the claim requires. -/
theorem detect_intent_employees_counterexample :
    detect_intent "show all records from employees"
        [("db1", [("emp", ["id"]), ("employees", ["id"])])] =
      some (.execute "db1" "emp" "SELECT * FROM emp LIMIT 100;" 0.9) ∧
    "SELECT * FROM emp LIMIT 100;" ≠ "SELECT * FROM employees LIMIT 100;" :=
  ⟨rfl, by decide⟩

/-- C8 (amended).  For any schema view in which the first table of the
flattened `(db, table)` enumeration that stands in substring relation with
the hint "employees" is named exactly `employees` (in particular, for any
schema whose only matching table is `employees`), the query
"show all records from employees" yields confidence 0.9 and statement
`SELECT * FROM employees LIMIT 100;`, and "count records in employees"
yields `SELECT COUNT(*) as count FROM employees;`. -/
theorem detect_intent_def (q : String) (s : SchemaView) :
    detect_intent q s = detectGo INTENT_PATTERNS (pyStrip (pyLower q)) s (allTablesOf s) :=
  rfl

theorem detect_intent_employees_scenarios (schemas : SchemaView)
    (db : String) (cols : List String)
    (hfind : (allTablesOf schemas).find?
        (fun dtc => tableHintMatch "employees" dtc.2.1) = some (db, "employees", cols)) :
    detect_intent "show all records from employees" schemas =
      some (.execute db "employees" "SELECT * FROM employees LIMIT 100;" 0.9) ∧
    detect_intent "count records in employees" schemas =
      some (.execute db "employees" "SELECT COUNT(*) as count FROM employees;" 0.9) := by
  constructor
  · have htry := tryPattern_execute patShowFrom "show all records from employees"
      schemas (allTablesOf schemas) ⟨["employees"]⟩ db "employees" cols rfl
      (by decide) hfind
    rw [detect_intent_def,
      show pyStrip (pyLower "show all records from employees") =
        "show all records from employees" from rfl,
      show INTENT_PATTERNS =
        [patListShow] ++ patShowFrom :: [patCount, patListTables, patFindWhere, patTopN] from rfl,
      detectGo_append _ _ _ _ _ (by
        intro p2 h2
        simp only [List.mem_singleton] at h2
        subst h2
        rfl),
      detectGo_cons_some _ _ _ _ _ _ htry]
    rfl
  · have htry := tryPattern_execute patCount "count records in employees"
      schemas (allTablesOf schemas) ⟨["employees"]⟩ db "employees" cols rfl
      (by decide) hfind
    rw [detect_intent_def,
      show pyStrip (pyLower "count records in employees") =
        "count records in employees" from rfl,
      show INTENT_PATTERNS =
        [patListShow, patShowFrom] ++ patCount :: [patListTables, patFindWhere, patTopN] from rfl,
      detectGo_append _ _ _ _ _ (by
        intro p2 h2
        simp only [List.mem_cons, List.not_mem_nil, or_false] at h2
        rcases h2 with rfl | rfl
        · rfl
        · rfl),
      detectGo_cons_some _ _ _ _ _ _ htry]
    rfl

/-- C8 (amended) witness: the simple one-table schema satisfies the
first-matching-table hypothesis, and both scenario statements follow. -/
theorem detect_intent_employees_scenarios_witness :
    detect_intent "show all records from employees" [("db1", [("employees", ["id"])])] =
      some (.execute "db1" "employees" "SELECT * FROM employees LIMIT 100;" 0.9) ∧
    detect_intent "count records in employees" [("db1", [("employees", ["id"])])] =
      some (.execute "db1" "employees" "SELECT COUNT(*) as count FROM employees;" 0.9) :=
  detect_intent_employees_scenarios [("db1", [("employees", ["id"])])] "db1" ["id"] rfl

/-! ## C10 — case/whitespace normalization noninterference -/

/-- C10.  Query text is normalized (`query.lower().strip()`) before both
embedding and intent matching: two query strings that agree after
lowercasing and stripping surrounding whitespace receive the same embedding
from `get_query_embedding` and the same intent from `detect_intent`, for
every embedding oracle and schema view. -/
theorem normalization_noninterference (encode : String → Option (List ℝ))
    (q1 q2 : String) (schemas : SchemaView)
    (h : pyStrip (pyLower q1) = pyStrip (pyLower q2)) :
    get_query_embedding encode q1 = get_query_embedding encode q2 ∧
    detect_intent q1 schemas = detect_intent q2 schemas := by
  refine ⟨?_, ?_⟩
  · unfold get_query_embedding
    rw [h]
  · rw [detect_intent_def, detect_intent_def, h]

/-- C10 witness: "  COUNT Records In Employees " and
"count records in employees" normalize identically, hence embed and match
identically. -/
theorem normalization_noninterference_witness :
    get_query_embedding (fun _ => none) "  COUNT Records In Employees " =
      get_query_embedding (fun _ => none) "count records in employees" ∧
    detect_intent "  COUNT Records In Employees " [("db1", [("employees", ["id"])])] =
      detect_intent "count records in employees" [("db1", [("employees", ["id"])])] :=
  normalization_noninterference (fun _ => none)
    "  COUNT Records In Employees " "count records in employees"
    [("db1", [("employees", ["id"])])] rfl

/-! ## Orchestrator plumbing lemmas -/

theorem find_similar_none_state (user_id query : String) (e : List ℝ) (s : CacheState)
    (h : (find_similar_cached_query user_id query e s).1 = none) :
    find_similar_cached_query user_id query e s = (none, s) := by
  unfold find_similar_cached_query at h ⊢
  dsimp only at h ⊢
  by_cases h1 : (s.index (indexKeyOf user_id)).isEmpty = true
  · rw [if_pos h1]
  · rw [if_neg h1] at h ⊢
    by_cases h2 : (List.filterMap id
        (List.map s.records (s.index (indexKeyOf user_id)))).isEmpty = true
    · rw [if_pos h2]
    · rw [if_neg h2] at h ⊢
      by_cases h3 : (List.map (fun e1 => cosine_similarity e e1.embedding)
            (List.filterMap id (List.map s.records (s.index (indexKeyOf user_id))))).getD
          (argmaxIdx (List.map (fun e1 => cosine_similarity e e1.embedding)
            (List.filterMap id (List.map s.records (s.index (indexKeyOf user_id)))))) 0 >
          SEMANTIC_SIMILARITY_THRESHOLD
      · rw [if_pos h3] at h
        exact absurd h (by simp)
      · rw [if_neg h3]

theorem step5_snd_none (env : OrchestratorEnv) (hash16 : String → String)
    (cache : CacheState) (u q : String) :
    (step5 env hash16 cache u q none).2 = cache := by
  unfold step5
  rcases env.llm with e | out
  · rfl
  · simp only
    rcases processLlmOut env out with e | body
    · rfl
    · rfl

theorem step45_snd_none (env : OrchestratorEnv) (hash16 : String → String)
    (cache : CacheState) (u q : String) :
    (step45 env hash16 cache u q none).2 = cache := by
  unfold step45
  rcases detect_intent q env.schemas with _ | intent
  · exact step5_snd_none env hash16 cache u q
  · simp only
    split
    · rcases execIntent env intent with e | body
      · exact step5_snd_none env hash16 cache u q
      · rfl
    · exact step5_snd_none env hash16 cache u q

theorem step5_fst_cache_indep (env : OrchestratorEnv) (hash16 : String → String)
    (c1 c2 : CacheState) (u q : String) (emb : Option (List ℝ)) :
    (step5 env hash16 c1 u q emb).1 = (step5 env hash16 c2 u q emb).1 := by
  unfold step5
  rcases env.llm with e | out
  · rfl
  · simp only
    rcases processLlmOut env out with e | body
    · rfl
    · rfl

theorem step45_fst_cache_indep (env : OrchestratorEnv) (hash16 : String → String)
    (c1 c2 : CacheState) (u q : String) (emb : Option (List ℝ)) :
    (step45 env hash16 c1 u q emb).1 = (step45 env hash16 c2 u q emb).1 := by
  unfold step45
  rcases detect_intent q env.schemas with _ | intent
  · exact step5_fst_cache_indep env hash16 c1 c2 u q emb
  · simp only
    split
    · rcases execIntent env intent with e | body
      · exact step5_fst_cache_indep env hash16 c1 c2 u q emb
      · rfl
    · exact step5_fst_cache_indep env hash16 c1 c2 u q emb

theorem process_query_emb_none (env : OrchestratorEnv) (hash16 : String → String)
    (cache : CacheState) (u q : String)
    (hschemas : env.schemas.isEmpty = false)
    (hemb : get_query_embedding env.encode q = none) :
    process_query env hash16 cache u q = step45 env hash16 cache u q none := by
  unfold process_query
  rw [hschemas]
  simp only [Bool.false_eq_true, if_false, hemb]

theorem step5_spec (env : OrchestratorEnv) (hash16 : String → String)
    (cache : CacheState) (u q : String) (emb : Option (List ℝ)) :
    (∃ e, env.llm = .error e ∧ step5 env hash16 cache u q emb =
      (.error ("An error occurred during LLM processing: " ++ e), cache)) ∨
    (∃ out e, env.llm = .ok out ∧ processLlmOut env out = .error e ∧
      step5 env hash16 cache u q emb =
        (.error ("Error processing LLM response: " ++ e), cache)) ∨
    (∃ out body, env.llm = .ok out ∧ processLlmOut env out = .ok body ∧
      step5 env hash16 cache u q emb =
        (.ok { body := body, source := some "llm_fallback" },
         match emb with
         | some e => store_semantic_cache hash16 env.now u q e
             { body := body, source := some "llm_fallback" } cache
         | none => cache)) := by
  unfold step5
  rcases hllm : env.llm with e | out
  · exact .inl ⟨e, rfl, rfl⟩
  · rcases hout : processLlmOut env out with e | body
    · exact .inr (.inl ⟨out, e, rfl, hout, by dsimp only; rw [hout]⟩)
    · exact .inr (.inr ⟨out, body, rfl, hout, by dsimp only; rw [hout]⟩)

theorem step5_fst_ok_source (env : OrchestratorEnv) (hash16 : String → String)
    (cache : CacheState) (u q : String) (emb : Option (List ℝ)) (r : Response)
    (h : (step5 env hash16 cache u q emb).1 = .ok r) :
    r.source = some "llm_fallback" := by
  rcases step5_spec env hash16 cache u q emb with
    ⟨e, _, heq⟩ | ⟨out, e, _, _, heq⟩ | ⟨out, body, _, _, heq⟩
  · rw [heq] at h
    exact absurd h (by simp)
  · rw [heq] at h
    exact absurd h (by simp)
  · rw [heq] at h
    have h2 := Except.ok.inj h
    rw [← h2]

theorem step5_fst_error_shape (env : OrchestratorEnv) (hash16 : String → String)
    (cache : CacheState) (u q : String) (emb : Option (List ℝ)) (msg : String)
    (h : (step5 env hash16 cache u q emb).1 = .error msg) :
    (∃ e0, msg = "An error occurred during LLM processing: " ++ e0) ∨
    (∃ e0, msg = "Error processing LLM response: " ++ e0) := by
  rcases step5_spec env hash16 cache u q emb with
    ⟨e, _, heq⟩ | ⟨out, e, _, _, heq⟩ | ⟨out, body, _, _, heq⟩
  · rw [heq] at h
    exact .inl ⟨e, (Except.error.inj h).symm⟩
  · rw [heq] at h
    exact .inr ⟨e, (Except.error.inj h).symm⟩
  · rw [heq] at h
    exact absurd h (by simp)

theorem step45_pattern_ok (env : OrchestratorEnv) (hash16 : String → String)
    (cache : CacheState) (u q : String) (emb : Option (List ℝ))
    (intent : Intent) (body : RespBody)
    (hintent : detect_intent q env.schemas = some intent)
    (hconf : intent.confidence > INTENT_CONFIDENCE_THRESHOLD)
    (hexec : execIntent env intent = .ok body) :
    (step45 env hash16 cache u q emb).1 =
      .ok { body := body, source := some "intent_detection",
            confidence := some intent.confidence } := by
  unfold step45
  rw [hintent]
  simp only [if_pos hconf, hexec]

theorem step45_pattern_err (env : OrchestratorEnv) (hash16 : String → String)
    (cache : CacheState) (u q : String) (emb : Option (List ℝ))
    (intent : Intent) (err : String)
    (hintent : detect_intent q env.schemas = some intent)
    (hconf : intent.confidence > INTENT_CONFIDENCE_THRESHOLD)
    (hexec : execIntent env intent = .error err) :
    step45 env hash16 cache u q emb = step5 env hash16 cache u q emb := by
  unfold step45
  rw [hintent]
  simp only [if_pos hconf, hexec]

theorem step45_spec (env : OrchestratorEnv) (hash16 : String → String)
    (cache : CacheState) (u q : String) (emb : Option (List ℝ)) :
    (∃ intent body, detect_intent q env.schemas = some intent ∧
      intent.confidence > INTENT_CONFIDENCE_THRESHOLD ∧
      execIntent env intent = .ok body ∧
      step45 env hash16 cache u q emb =
        (.ok { body := body, source := some "intent_detection",
               confidence := some intent.confidence },
         match emb with
         | some e => store_semantic_cache hash16 env.now u q e
             { body := body, source := some "intent_detection",
               confidence := some intent.confidence } cache
         | none => cache)) ∨
    step45 env hash16 cache u q emb = step5 env hash16 cache u q emb := by
  unfold step45
  rcases hdet : detect_intent q env.schemas with _ | intent
  · exact .inr rfl
  · dsimp only
    by_cases hc : intent.confidence > INTENT_CONFIDENCE_THRESHOLD
    · rw [if_pos hc]
      rcases hex : execIntent env intent with e | body
      · exact .inr rfl
      · exact .inl ⟨intent, body, rfl, hc, hex, rfl⟩
    · rw [if_neg hc]
      exact .inr rfl

theorem step45_fst_ok_source (env : OrchestratorEnv) (hash16 : String → String)
    (cache : CacheState) (u q : String) (emb : Option (List ℝ)) (r : Response)
    (h : (step45 env hash16 cache u q emb).1 = .ok r) :
    r.source = some "intent_detection" ∨ r.source = some "llm_fallback" := by
  rcases step45_spec env hash16 cache u q emb with
    ⟨intent, body, _, _, _, heq⟩ | heq
  · rw [heq] at h
    have h2 := Except.ok.inj h
    rw [← h2]
    exact .inl rfl
  · rw [heq] at h
    exact .inr (step5_fst_ok_source env hash16 cache u q emb r h)

theorem process_query_miss (env : OrchestratorEnv) (hash16 : String → String)
    (cache : CacheState) (u q : String) (e : List ℝ)
    (hschemas : env.schemas.isEmpty = false)
    (hemb : get_query_embedding env.encode q = some e)
    (hmiss : (find_similar_cached_query u q e cache).1 = none) :
    process_query env hash16 cache u q = step45 env hash16 cache u q (some e) := by
  unfold process_query
  rw [hschemas]
  simp only [Bool.false_eq_true, if_false, hemb]
  rw [find_similar_none_state u q e cache hmiss]

theorem process_query_hit (env : OrchestratorEnv) (hash16 : String → String)
    (cache : CacheState) (u q : String) (e : List ℝ) (m : SimilarMatch)
    (c' : CacheState)
    (hschemas : env.schemas.isEmpty = false)
    (hemb : get_query_embedding env.encode q = some e)
    (hhit : find_similar_cached_query u q e cache = (some m, c')) :
    process_query env hash16 cache u q =
      (.ok { m.response with
              source := some "semantic_cache",
              similarity_score := some m.similarity,
              original_cached_query := some m.original_query }, c') := by
  unfold process_query
  rw [hschemas]
  simp only [Bool.false_eq_true, if_false, hemb, hhit]

/-! ## C5 — embedding failure skips the cache tier -/

/-- C5.  When embedding generation fails (`get_query_embedding` returns
nothing), the orchestrator skips the semantic-cache tier entirely: the run
equals the pattern/LLM ladder invoked with no embedding, the final Redis
state is the initial one (no cache record is written, no hit count is
touched), and the outcome does not depend on the cache state at all — the
request still completes via the pattern-match or LLM tier exactly as it
would with any cache contents. -/
theorem embedding_failure_skips_cache (env : OrchestratorEnv)
    (hash16 : String → String) (cache : CacheState) (u q : String)
    (hschemas : env.schemas.isEmpty = false)
    (hemb : get_query_embedding env.encode q = none) :
    process_query env hash16 cache u q = step45 env hash16 cache u q none ∧
    (process_query env hash16 cache u q).2 = cache ∧
    ∀ cache2, (process_query env hash16 cache2 u q).1 =
      (process_query env hash16 cache u q).1 := by
  have h1 := process_query_emb_none env hash16 cache u q hschemas hemb
  refine ⟨h1, ?_, ?_⟩
  · rw [h1]
    exact step45_snd_none env hash16 cache u q
  · intro cache2
    rw [h1, process_query_emb_none env hash16 cache2 u q hschemas hemb]
    exact step45_fst_cache_indep env hash16 cache2 cache u q none

/-- C5 witness: a concrete environment whose embedding oracle fails; the
pattern tier answers and the cache state is untouched. -/
theorem embedding_failure_skips_cache_witness :
    process_query envPatternOk hashConst emptyCache "u" "count rows in e" =
      step45 envPatternOk hashConst emptyCache "u" "count rows in e" none ∧
    (process_query envPatternOk hashConst emptyCache "u" "count rows in e").2 =
      emptyCache :=
  have h := embedding_failure_skips_cache envPatternOk hashConst emptyCache
    "u" "count rows in e" rfl rfl
  ⟨h.1, h.2.1⟩

/-! ## C3 — pattern-tier execution failure falls through to the LLM tier -/

/-- C3.  If the pattern tier produces an intent that passes the confidence
gate but whose execution raises (list-tables resolution or statement
execution), the orchestrator does not surface that error: the whole run
equals the LLM tier (`step5`), so the caller sees an LLM-tier success
(tagged `llm_fallback`) or an LLM-tier failure message — never the
pattern-tier database error. -/
theorem pattern_failure_falls_through (env : OrchestratorEnv)
    (hash16 : String → String) (cache : CacheState) (u q : String)
    (intent : Intent) (err : String)
    (hschemas : env.schemas.isEmpty = false)
    (hmiss : ∀ e, get_query_embedding env.encode q = some e →
      (find_similar_cached_query u q e cache).1 = none)
    (hintent : detect_intent q env.schemas = some intent)
    (hconf : intent.confidence > INTENT_CONFIDENCE_THRESHOLD)
    (hexec : execIntent env intent = .error err) :
    process_query env hash16 cache u q =
      step5 env hash16 cache u q (get_query_embedding env.encode q) ∧
    (∀ r c', process_query env hash16 cache u q = (.ok r, c') →
      r.source = some "llm_fallback") ∧
    (∀ msg c', process_query env hash16 cache u q = (.error msg, c') →
      (∃ e0, msg = "An error occurred during LLM processing: " ++ e0) ∨
      (∃ e0, msg = "Error processing LLM response: " ++ e0)) := by
  have h1 : process_query env hash16 cache u q =
      step5 env hash16 cache u q (get_query_embedding env.encode q) := by
    rcases hqe : get_query_embedding env.encode q with _ | e
    · rw [process_query_emb_none env hash16 cache u q hschemas hqe]
      exact step45_pattern_err env hash16 cache u q none intent err hintent hconf hexec
    · rw [process_query_miss env hash16 cache u q e hschemas hqe (hmiss e hqe)]
      exact step45_pattern_err env hash16 cache u q (some e) intent err hintent hconf hexec
  refine ⟨h1, ?_, ?_⟩
  · intro r c' hr
    rw [h1] at hr
    exact step5_fst_ok_source env hash16 cache u q _ r (by rw [hr])
  · intro msg c' hr
    rw [h1] at hr
    exact step5_fst_error_shape env hash16 cache u q _ msg (by rw [hr])

/-- C3 witness: concrete run where the count pattern matches with
confidence 0.9 > 0.8 and the SQL execution oracle raises; the run equals
the LLM tier verbatim. -/
theorem pattern_failure_falls_through_witness :
    process_query envPatternFail hashConst emptyCache "u" "count rows in e" =
      step5 envPatternFail hashConst emptyCache "u" "count rows in e"
        (get_query_embedding envPatternFail.encode "count rows in e") :=
  (pattern_failure_falls_through envPatternFail hashConst emptyCache "u"
    "count rows in e"
    (.execute "db1" "e" "SELECT COUNT(*) as count FROM e;" 0.9) "relation does not exist"
    rfl (fun e he => Option.noConfusion he) rfl
    (by norm_num [Intent.confidence, INTENT_CONFIDENCE_THRESHOLD]) rfl).1

theorem step5_llm_ok (env : OrchestratorEnv) (hash16 : String → String)
    (cache : CacheState) (u q : String) (emb : Option (List ℝ))
    (out : LlmOut) (body : RespBody)
    (hllm : env.llm = .ok out) (hout : processLlmOut env out = .ok body) :
    (step5 env hash16 cache u q emb).1 =
      .ok { body := body, source := some "llm_fallback" } := by
  unfold step5
  rw [hllm]
  dsimp only
  rw [hout]

/-! ## C6 — provenance tags on successful responses -/

/-- C6 (amended).  Every successful response carries a source tag drawn
from `{"semantic_cache", "intent_detection", "llm_fallback"}`: a cache hit
returns the cached response annotated `semantic_cache` together with the
similarity score and the originally matched query text, and the run ends
there; a pattern-tier success is annotated `intent_detection` (the source
uses this tag, not `pattern_match`) with its confidence; an LLM-tier
success is annotated `llm_fallback`. -/
theorem response_source_tags (env : OrchestratorEnv) (hash16 : String → String)
    (cache : CacheState) (u q : String) :
    (∀ r c', process_query env hash16 cache u q = (.ok r, c') →
      r.source = some "semantic_cache" ∨ r.source = some "intent_detection" ∨
      r.source = some "llm_fallback") ∧
    (∀ e m c', env.schemas.isEmpty = false →
      get_query_embedding env.encode q = some e →
      find_similar_cached_query u q e cache = (some m, c') →
      process_query env hash16 cache u q =
        (.ok { m.response with
                source := some "semantic_cache",
                similarity_score := some m.similarity,
                original_cached_query := some m.original_query }, c')) ∧
    (∀ emb intent body, detect_intent q env.schemas = some intent →
      intent.confidence > INTENT_CONFIDENCE_THRESHOLD →
      execIntent env intent = .ok body →
      (step45 env hash16 cache u q emb).1 =
        .ok { body := body, source := some "intent_detection",
              confidence := some intent.confidence }) ∧
    (∀ emb out body, env.llm = .ok out → processLlmOut env out = .ok body →
      (step5 env hash16 cache u q emb).1 =
        .ok { body := body, source := some "llm_fallback" }) := by
  refine ⟨?_, ?_, ?_, ?_⟩
  · intro r c' h
    by_cases hschemas : env.schemas.isEmpty = true
    · unfold process_query at h
      rw [if_pos hschemas] at h
      exact absurd (congrArg Prod.fst h) (by simp)
    · have hs : env.schemas.isEmpty = false := by
        cases hb : env.schemas.isEmpty
        · rfl
        · exact absurd hb hschemas
      rcases hqe : get_query_embedding env.encode q with _ | e
      · rw [process_query_emb_none env hash16 cache u q hs hqe] at h
        exact .inr (step45_fst_ok_source env hash16 cache u q none r (by rw [h]))
      · rcases hfind : find_similar_cached_query u q e cache with ⟨om, c1⟩
        rcases om with _ | m
        · have hmiss : (find_similar_cached_query u q e cache).1 = none := by
            rw [hfind]
          rw [process_query_miss env hash16 cache u q e hs hqe hmiss] at h
          exact .inr (step45_fst_ok_source env hash16 cache u q (some e) r (by rw [h]))
        · have hrun := process_query_hit env hash16 cache u q e m c1 hs hqe hfind
          have h2 := congrArg Prod.fst (hrun.symm.trans h)
          have h3 := Except.ok.inj h2
          rw [← h3]
          exact .inl rfl
  · intro e m c' hs hqe hfind
    exact process_query_hit env hash16 cache u q e m c' hs hqe hfind
  · intro emb intent body hdet hconf hexec
    exact step45_pattern_ok env hash16 cache u q emb intent body hdet hconf hexec
  · intro emb out body hllm hout
    exact step5_llm_ok env hash16 cache u q emb out body hllm hout

/-- C6 witness: in the concrete environment whose LLM answers a list-tables
action, the LLM tier's success is tagged `llm_fallback`; and the pattern
tier of the other concrete environment tags its success
`intent_detection`. -/
theorem response_source_tags_witness :
    (step5 envPatternFail hashConst emptyCache "u" "count rows in e" none).1 =
      .ok { body := .listTables (some "db1") ["e"], source := some "llm_fallback" } :=
  (response_source_tags envPatternFail hashConst emptyCache "u"
    "count rows in e").2.2.2 none (.listTables (some "db1"))
    (.listTables (some "db1") ["e"]) rfl rfl

/-- C6 counterexample.  A concrete end-to-end run in which the pattern tier
succeeds: the response's source tag is `"intent_detection"`, not the
`"pattern_match"` stated by the claim. -/
theorem response_source_tag_counterexample :
    (process_query envPatternOk hashConst emptyCache "u" "count rows in e").1 =
      .ok { body := .sqlResult (some "db1") (some "e")
              "SELECT COUNT(*) as count FROM e;" 1 ["row"],
            source := some "intent_detection", confidence := some 0.9 } ∧
    (some "intent_detection" : Option String) ≠ some "pattern_match" := by
  constructor
  · rw [process_query_emb_none envPatternOk hashConst emptyCache "u"
      "count rows in e" rfl rfl]
    rw [step45_pattern_ok envPatternOk hashConst emptyCache "u" "count rows in e" none
      (.execute "db1" "e" "SELECT COUNT(*) as count FROM e;" 0.9)
      (.sqlResult (some "db1") (some "e") "SELECT COUNT(*) as count FROM e;" 1 ["row"])
      rfl (by norm_num [Intent.confidence, INTENT_CONFIDENCE_THRESHOLD]) rfl]
    rfl
  · decide

/-! ## Arithmetic facts about argmax and cosine similarity -/

theorem argmaxIdx_lt_length (l : List ℝ) (h : l ≠ []) : argmaxIdx l < l.length := by
  induction l with
  | nil => exact absurd rfl h
  | cons x xs ih =>
    unfold argmaxIdx
    by_cases hxs : xs = []
    · rw [if_pos hxs]
      simp
    · rw [if_neg hxs]
      by_cases hcmp : xs.getD (argmaxIdx xs) 0 > x
      · rw [if_pos hcmp]
        exact Nat.succ_lt_succ (ih hxs)
      · rw [if_neg hcmp]
        simp
  
theorem argmaxIdx_spec (l : List ℝ) (j : Nat) (hj : j < l.length) :
    l.getD j 0 ≤ l.getD (argmaxIdx l) 0 := by
  induction l generalizing j with
  | nil => simp at hj
  | cons x xs ih =>
    unfold argmaxIdx
    by_cases hxs : xs = []
    · rw [if_pos hxs]
      subst hxs
      have hj0 : j = 0 := Nat.lt_one_iff.mp (by simpa using hj)
      subst hj0
      simp
    · rw [if_neg hxs]
      by_cases hcmp : xs.getD (argmaxIdx xs) 0 > x
      · rw [if_pos hcmp]
        cases j with
        | zero => simpa using le_of_lt hcmp
        | succ j =>
          simp only [List.getD_cons_succ]
          exact ih j (Nat.lt_of_succ_lt_succ hj)
      · rw [if_neg hcmp]
        push_neg at hcmp
        cases j with
        | zero => simp
        | succ j =>
          simp only [List.getD_cons_succ, List.getD_cons_zero]
          exact le_trans (ih j (Nat.lt_of_succ_lt_succ hj)) hcmp

theorem dotList_cons (a b : ℝ) (u v : List ℝ) :
    dotList (a :: u) (b :: v) = a * b + dotList u v := by
  unfold dotList
  simp

theorem dotList_self_nonneg (v : List ℝ) : 0 ≤ dotList v v := by
  induction v with
  | nil => simp [dotList]
  | cons a t ih =>
    rw [dotList_cons]
    exact add_nonneg (mul_self_nonneg a) ih

theorem dotList_self_pos (v : List ℝ) (x : ℝ) (hx : x ∈ v) (hx0 : x ≠ 0) :
    0 < dotList v v := by
  induction v with
  | nil => simp at hx
  | cons a t ih =>
    rw [dotList_cons]
    rcases List.mem_cons.mp hx with rfl | hmem
    · exact add_pos_of_pos_of_nonneg (mul_self_pos.mpr hx0) (dotList_self_nonneg t)
    · exact add_pos_of_nonneg_of_pos (mul_self_nonneg a) (ih hmem)

theorem cosine_self (v : List ℝ) (h : 0 < dotList v v) :
    cosine_similarity v v = 1 := by
  unfold cosine_similarity
  rw [Real.mul_self_sqrt (le_of_lt h)]
  exact div_self (ne_of_gt h)

theorem getD_map_sim (f : SemanticCacheEntry → ℝ) (l : List SemanticCacheEntry)
    (i : Nat) (h : i < l.length) :
    (l.map f).getD i 0 = f (l.getD i default) := by
  rw [List.getD_eq_getElem?_getD, List.getElem?_map,
    List.getElem?_eq_getElem h, List.getD_eq_getElem l default h]
  simp

theorem mem_liveEntries_iff (s : CacheState) (u : String) (e : SemanticCacheEntry) :
    e ∈ liveEntries s u ↔ IsLiveEntry s u e := by
  unfold liveEntries IsLiveEntry
  rw [List.filterMap_map]
  constructor
  · intro h
    rcases List.mem_filterMap.mp h with ⟨k, hk, hrec⟩
    exact ⟨k, hk, hrec⟩
  · intro ⟨k, hk, hrec⟩
    exact List.mem_filterMap.mpr ⟨k, hk, hrec⟩

open Classical in
/-- Branch characterization of `find_similar_cached_query`: no live entries
means no match; otherwise the argmax similarity is compared against the
threshold, and on a hit the best entry's data is returned while its
`hit_count + 1` rewrite lands at `cached_keys[best_idx]` — the unfiltered
key list indexed by the filtered argmax. -/
theorem find_similar_eq (u q : String) (E : List ℝ) (s : CacheState) :
    find_similar_cached_query u q E s =
      if liveEntries s u = [] then (none, s)
      else if bestSimOf E s u > SEMANTIC_SIMILARITY_THRESHOLD then
        (some ⟨(bestEntryOf E s u).response, bestSimOf E s u, (bestEntryOf E s u).query⟩,
         { s with records := fun k =>
             if k = (s.index (indexKeyOf u)).getD (bestIdxOf E s u) "" then
               some { bestEntryOf E s u with
                       hit_count := (bestEntryOf E s u).hit_count + 1 }
             else s.records k })
      else (none, s) := by
  unfold find_similar_cached_query
  dsimp only
  by_cases h1 : (s.index (indexKeyOf u)).isEmpty = true
  · rw [if_pos h1]
    have hl : liveEntries s u = [] := by
      unfold liveEntries
      rw [List.isEmpty_iff.mp h1]
      rfl
    rw [if_pos hl]
  · rw [if_neg h1]
    by_cases h2 : (List.filterMap id (List.map s.records (s.index (indexKeyOf u)))).isEmpty = true
    · rw [if_pos h2]
      rw [if_pos (List.isEmpty_iff.mp h2 : liveEntries s u = [])]
    · rw [if_neg h2]
      have hl : ¬liveEntries s u = [] := fun h0 => h2 (List.isEmpty_iff.mpr h0)
      rw [if_neg hl]
      by_cases h3 : (List.map (fun e => cosine_similarity E e.embedding)
          (List.filterMap id (List.map s.records (s.index (indexKeyOf u))))).getD
          (argmaxIdx (List.map (fun e => cosine_similarity E e.embedding)
            (List.filterMap id (List.map s.records (s.index (indexKeyOf u)))))) 0 >
          SEMANTIC_SIMILARITY_THRESHOLD
      · rw [if_pos h3,
          if_pos (show bestSimOf E s u > SEMANTIC_SIMILARITY_THRESHOLD from h3)]
        rfl
      · rw [if_neg h3,
          if_neg (show ¬bestSimOf E s u > SEMANTIC_SIMILARITY_THRESHOLD from h3)]

theorem bestSimOf_eq_best_cosine (E : List ℝ) (s : CacheState) (u : String)
    (hne : liveEntries s u ≠ []) :
    bestSimOf E s u = cosine_similarity E (bestEntryOf E s u).embedding := by
  have hlt : bestIdxOf E s u < (liveEntries s u).length := by
    have := argmaxIdx_lt_length
      ((liveEntries s u).map fun e => cosine_similarity E e.embedding)
      (by simpa using hne)
    simpa using this
  unfold bestSimOf bestEntryOf
  exact getD_map_sim _ _ _ hlt

theorem bestEntryOf_live (E : List ℝ) (s : CacheState) (u : String)
    (hne : liveEntries s u ≠ []) : IsLiveEntry s u (bestEntryOf E s u) := by
  have hlt : bestIdxOf E s u < (liveEntries s u).length := by
    have := argmaxIdx_lt_length
      ((liveEntries s u).map fun e => cosine_similarity E e.embedding)
      (by simpa using hne)
    simpa using this
  apply (mem_liveEntries_iff s u _).mp
  rw [bestEntryOf, List.getD_eq_getElem _ default hlt]
  exact List.getElem_mem _

theorem cosine_le_bestSimOf (E : List ℝ) (s : CacheState) (u : String)
    (e : SemanticCacheEntry) (hlive : IsLiveEntry s u e) :
    cosine_similarity E e.embedding ≤ bestSimOf E s u := by
  have hmem : e ∈ liveEntries s u := (mem_liveEntries_iff s u e).mpr hlive
  obtain ⟨i, hi, hget⟩ := List.getElem_of_mem hmem
  have hlen : i < ((liveEntries s u).map fun e => cosine_similarity E e.embedding).length := by
    simpa using hi
  have hle := argmaxIdx_spec ((liveEntries s u).map fun e => cosine_similarity E e.embedding) i hlen
  have hsi : ((liveEntries s u).map fun e => cosine_similarity E e.embedding).getD i 0 =
      cosine_similarity E e.embedding := by
    rw [getD_map_sim _ _ i hi, List.getD_eq_getElem _ default hi, hget]
  rw [hsi] at hle
  exact hle

/-! ## C1 — find_similar returns the global best above the threshold -/

/-- C1.  For every tenant and query embedding, `find_similar_cached_query`
(i) on a match, returns a live (present, non-expired) record of that
tenant's index whose cosine similarity with the query embedding strictly
exceeds the threshold and is maximal among all live records — it never
returns a record whose similarity is lower than another live record's;
(ii) returns no match when no live record's similarity strictly exceeds
the threshold; and (iii) returns a match whenever some live record's
similarity strictly exceeds the threshold. -/
theorem find_similar_returns_global_best (u q : String) (E : List ℝ) (s : CacheState) :
    (∀ m s', find_similar_cached_query u q E s = (some m, s') →
      m.similarity > SEMANTIC_SIMILARITY_THRESHOLD ∧
      (∃ e, IsLiveEntry s u e ∧ m.response = e.response ∧
        m.original_query = e.query ∧
        m.similarity = cosine_similarity E e.embedding) ∧
      (∀ e, IsLiveEntry s u e →
        cosine_similarity E e.embedding ≤ m.similarity)) ∧
    ((∀ e, IsLiveEntry s u e →
        cosine_similarity E e.embedding ≤ SEMANTIC_SIMILARITY_THRESHOLD) →
      (find_similar_cached_query u q E s).1 = none) ∧
    ((∃ e, IsLiveEntry s u e ∧
        cosine_similarity E e.embedding > SEMANTIC_SIMILARITY_THRESHOLD) →
      ∃ m s', find_similar_cached_query u q E s = (some m, s')) := by
  refine ⟨?_, ?_, ?_⟩
  · intro m s' h
    rw [find_similar_eq] at h
    by_cases h1 : liveEntries s u = []
    · rw [if_pos h1] at h
      exact absurd (congrArg Prod.fst h) (by simp)
    · rw [if_neg h1] at h
      by_cases h3 : bestSimOf E s u > SEMANTIC_SIMILARITY_THRESHOLD
      · rw [if_pos h3] at h
        have hm := (Option.some.inj (congrArg Prod.fst h)).symm
        subst hm
        refine ⟨h3, ⟨bestEntryOf E s u, bestEntryOf_live E s u h1, rfl, rfl,
          bestSimOf_eq_best_cosine E s u h1⟩, ?_⟩
        intro e hlive
        exact cosine_le_bestSimOf E s u e hlive
      · rw [if_neg h3] at h
        exact absurd (congrArg Prod.fst h) (by simp)
  · intro hub
    rw [find_similar_eq]
    by_cases h1 : liveEntries s u = []
    · rw [if_pos h1]
    · rw [if_neg h1]
      have h3 : ¬bestSimOf E s u > SEMANTIC_SIMILARITY_THRESHOLD := by
        rw [bestSimOf_eq_best_cosine E s u h1]
        exact not_lt_of_le (hub _ (bestEntryOf_live E s u h1))
      rw [if_neg h3]
  · intro ⟨e, hlive, hgt⟩
    have hne : liveEntries s u ≠ [] := by
      intro h0
      have := (mem_liveEntries_iff s u e).mpr hlive
      rw [h0] at this
      exact absurd this (List.not_mem_nil e)
    have h3 : bestSimOf E s u > SEMANTIC_SIMILARITY_THRESHOLD :=
      lt_of_lt_of_le hgt (cosine_le_bestSimOf E s u e hlive)
    rw [find_similar_eq, if_neg hne, if_pos h3]
    exact ⟨_, _, rfl⟩

/-- C1 witness: on a one-record state holding the unit embedding `[1]`, a
lookup with the same embedding matches (similarity 1 > 0.88), the match is
maximal, and a lookup with the orthogonal embedding `[0]` (similarity 0)
returns no match. -/
theorem find_similar_returns_global_best_witness :
    (find_similar_cached_query "t" "q" [(1 : ℝ)] cacheFix).1 =
      some ⟨respFix, bestSimOf [1] cacheFix "t", "p"⟩ ∧
    bestSimOf [(1 : ℝ)] cacheFix "t" > SEMANTIC_SIMILARITY_THRESHOLD ∧
    cosine_similarity [(1 : ℝ)] entryFix.embedding ≤ bestSimOf [1] cacheFix "t" ∧
    (find_similar_cached_query "t" "q2" [(0 : ℝ)] cacheFix).1 = none := by
  have hcos1 : cosine_similarity [(1 : ℝ)] [1] = 1 := by
    apply cosine_self
    norm_num [dotList]
  have h3 : bestSimOf [(1 : ℝ)] cacheFix "t" > SEMANTIC_SIMILARITY_THRESHOLD := by
    rw [show bestSimOf [(1 : ℝ)] cacheFix "t" = cosine_similarity [1] [1] from rfl, hcos1]
    norm_num [SEMANTIC_SIMILARITY_THRESHOLD]
  have hne : liveEntries cacheFix "t" ≠ [] := by
    rw [show liveEntries cacheFix "t" = [entryFix] from rfl]
    simp
  have hfind := find_similar_eq "t" "q" [(1 : ℝ)] cacheFix
  rw [if_neg hne, if_pos h3] at hfind
  have hliveFix : IsLiveEntry cacheFix "t" entryFix := by
    refine ⟨"k1", ?_, rfl⟩
    rw [show cacheFix.index (indexKeyOf "t") = ["k1"] from rfl]
    exact List.mem_singleton_self "k1"
  have hub : ∀ e, IsLiveEntry cacheFix "t" e →
      cosine_similarity [(0 : ℝ)] e.embedding ≤ SEMANTIC_SIMILARITY_THRESHOLD := by
    intro e hlive
    obtain ⟨k, hk, hrec⟩ := hlive
    rw [show cacheFix.index (indexKeyOf "t") = ["k1"] from rfl] at hk
    have hk1 : k = "k1" := List.mem_singleton.mp hk
    subst hk1
    have he : entryFix = e := Option.some.inj hrec
    rw [← he]
    have hz : cosine_similarity [(0 : ℝ)] entryFix.embedding = 0 := by
      show cosine_similarity [(0 : ℝ)] [1] = 0
      unfold cosine_similarity
      norm_num [dotList]
    rw [hz]
    norm_num [SEMANTIC_SIMILARITY_THRESHOLD]
  refine ⟨by rw [hfind]; rfl, h3,
    (((find_similar_returns_global_best "t" "q" [(1 : ℝ)] cacheFix).1 _ _ hfind).2.2
      entryFix hliveFix),
    (find_similar_returns_global_best "t" "q2" [(0 : ℝ)] cacheFix).2.1 hub⟩

/-! ## C2 — store then identical lookup hits the cache -/

theorem mem_saddList_self (l : List String) (k : String) : k ∈ saddList l k := by
  unfold saddList
  by_cases h : l.contains k
  · rw [if_pos h]
    exact List.mem_of_elem_eq_true h
  · rw [if_neg h]
    exact List.mem_append_right l (List.mem_singleton_self k)

theorem store_records_self (hash16 : String → String) (now : ℝ)
    (t Q : String) (E : List ℝ) (R : Response) (s : CacheState) :
    (store_semantic_cache hash16 now t Q E R s).records (cacheKeyOf t (hash16 Q)) =
      some { query := Q, embedding := E, response := R, timestamp := now, user_id := t } := by
  unfold store_semantic_cache
  dsimp only
  rw [if_pos rfl]

theorem store_index_self (hash16 : String → String) (now : ℝ)
    (t Q : String) (E : List ℝ) (R : Response) (s : CacheState) :
    (store_semantic_cache hash16 now t Q E R s).index (indexKeyOf t) =
      saddList (s.index (indexKeyOf t)) (cacheKeyOf t (hash16 Q)) := by
  unfold store_semantic_cache
  dsimp only
  rw [if_pos rfl]

/-- C2.  Round-trip: store a response `R` for query `Q` with non-zero
embedding `E`, then process the identical `Q`.  The identical query text
produces the identical embedding; the freshly stored record has cosine
similarity exactly 1 with it, which strictly exceeds the threshold, so —
provided no *other* live record ties at similarity exactly 1 — the
orchestrator returns the cached `R` annotated with source
`semantic_cache`, similarity 1 and the original query text, and the
outcome is independent of the LLM oracle (the LLM tier is never
invoked). -/
theorem store_then_lookup_hits (env : OrchestratorEnv) (hash16 : String → String)
    (now : ℝ) (cache : CacheState) (t Q : String) (E : List ℝ) (R : Response)
    (hschemas : env.schemas.isEmpty = false)
    (hembed : get_query_embedding env.encode Q = some E)
    (hnz : ∃ x ∈ E, x ≠ 0)
    (hUnique : ∀ k, k ∈ (store_semantic_cache hash16 now t Q E R cache).index (indexKeyOf t) →
      k ≠ cacheKeyOf t (hash16 Q) →
      ∀ e, (store_semantic_cache hash16 now t Q E R cache).records k = some e →
        cosine_similarity E e.embedding < 1) :
    (∃ c', process_query env hash16 (store_semantic_cache hash16 now t Q E R cache) t Q =
      (.ok { R with
              source := some "semantic_cache",
              similarity_score := some 1,
              original_cached_query := some Q }, c')) ∧
    (∀ llm2, process_query { env with llm := llm2 } hash16
        (store_semantic_cache hash16 now t Q E R cache) t Q =
      process_query env hash16 (store_semantic_cache hash16 now t Q E R cache) t Q) := by
  obtain ⟨x, hxmem, hx0⟩ := hnz
  set s' := store_semantic_cache hash16 now t Q E R cache with hs'
  set ours : SemanticCacheEntry :=
    { query := Q, embedding := E, response := R, timestamp := now, user_id := t }
    with hours
  have hrec : s'.records (cacheKeyOf t (hash16 Q)) = some ours :=
    store_records_self hash16 now t Q E R cache
  have hmemk : cacheKeyOf t (hash16 Q) ∈ s'.index (indexKeyOf t) := by
    rw [store_index_self hash16 now t Q E R cache]
    exact mem_saddList_self _ _
  have hlive : IsLiveEntry s' t ours := ⟨cacheKeyOf t (hash16 Q), hmemk, hrec⟩
  have hcosE : cosine_similarity E E = 1 :=
    cosine_self E (dotList_self_pos E x hxmem hx0)
  have hub : ∀ e, IsLiveEntry s' t e → cosine_similarity E e.embedding ≤ 1 := by
    intro e ⟨k, hk, hkrec⟩
    by_cases hkc : k = cacheKeyOf t (hash16 Q)
    · subst hkc
      have : ours = e := Option.some.inj (hrec ▸ hkrec)
      rw [← this]
      exact le_of_eq hcosE
    · exact le_of_lt (hUnique k hk hkc e hkrec)
  have hne : liveEntries s' t ≠ [] := by
    intro h0
    have := (mem_liveEntries_iff s' t ours).mpr hlive
    rw [h0] at this
    exact absurd this (List.not_mem_nil ours)
  have hbest1 : bestSimOf E s' t = 1 := by
    apply le_antisymm
    · rw [bestSimOf_eq_best_cosine E s' t hne]
      exact hub _ (bestEntryOf_live E s' t hne)
    · have := cosine_le_bestSimOf E s' t ours hlive
      rw [show ours.embedding = E from rfl, hcosE] at this
      exact this
  have hbentry : bestEntryOf E s' t = ours := by
    obtain ⟨k, hk, hkrec⟩ := bestEntryOf_live E s' t hne
    by_cases hkc : k = cacheKeyOf t (hash16 Q)
    · subst hkc
      exact Option.some.inj (hkrec.symm.trans hrec)
    · exfalso
      have hlt := hUnique k hk hkc _ hkrec
      rw [← bestSimOf_eq_best_cosine E s' t hne, hbest1] at hlt
      exact lt_irrefl 1 hlt
  have h3 : bestSimOf E s' t > SEMANTIC_SIMILARITY_THRESHOLD := by
    rw [hbest1]
    norm_num [SEMANTIC_SIMILARITY_THRESHOLD]
  have hfind := find_similar_eq t Q E s'
  rw [if_neg hne, if_pos h3] at hfind
  have hrun := process_query_hit env hash16 s' t Q E _ _ hschemas hembed hfind
  have hllm : ∀ llm2, process_query { env with llm := llm2 } hash16 s' t Q =
      process_query env hash16 s' t Q := by
    intro llm2
    have hrun2 := process_query_hit { env with llm := llm2 } hash16 s' t Q E _ _
      hschemas hembed hfind
    rw [hrun2, hrun]
  rw [hbentry, hbest1] at hrun
  exact ⟨⟨_, hrun⟩, hllm⟩

/-- C2 witness: store `respFix` under "q" with embedding `[1]` in an empty
cache, then process "q": the orchestrator answers from the semantic cache
with similarity 1. -/
theorem store_then_lookup_hits_witness :
    (process_query envRoundTrip hashConst
        (store_semantic_cache hashConst 0 "t" "q" [1] respFix emptyCache) "t" "q").1 =
      .ok { respFix with
             source := some "semantic_cache",
             similarity_score := some 1,
             original_cached_query := some "q" } := by
  obtain ⟨⟨c', hc⟩, _⟩ := store_then_lookup_hits envRoundTrip hashConst 0 emptyCache
    "t" "q" [1] respFix rfl rfl ⟨1, by simp, one_ne_zero⟩ (by
      intro k hk hne e hrec
      rw [show (store_semantic_cache hashConst 0 "t" "q" [1] respFix emptyCache).index
        (indexKeyOf "t") = [cacheKeyOf "t" (hashConst "q")] from rfl] at hk
      exact absurd (List.mem_singleton.mp hk) hne)
  rw [hc]

/-! ## Key disambiguation for tenant isolation -/

theorem append_cons_inj_left {α : Type} (c : α) (l₁ r₁ l₂ r₂ : List α)
    (h1 : c ∉ l₁) (h2 : c ∉ l₂) (h : l₁ ++ c :: r₁ = l₂ ++ c :: r₂) :
    l₁ = l₂ ∧ r₁ = r₂ := by
  induction l₁ generalizing l₂ with
  | nil =>
    cases l₂ with
    | nil => simpa using h
    | cons b t =>
      simp only [List.nil_append, List.cons_append, List.cons.injEq] at h
      exact absurd (List.mem_cons.mpr (.inl h.1)) h2
  | cons a t ih =>
    cases l₂ with
    | nil =>
      simp only [List.nil_append, List.cons_append, List.cons.injEq] at h
      exact absurd (List.mem_cons.mpr (.inl h.1.symm)) h1
    | cons b t₂ =>
      simp only [List.cons_append, List.cons.injEq] at h
      have hrec := ih t₂ (fun hm => h1 (List.mem_cons_of_mem a hm))
        (fun hm => h2 (List.mem_cons_of_mem b hm)) h.2
      exact ⟨by rw [h.1, hrec.1], hrec.2⟩

theorem append_cons_inj_right {α : Type} (c : α) (l₁ r₁ l₂ r₂ : List α)
    (h1 : c ∉ r₁) (h2 : c ∉ r₂) (h : l₁ ++ c :: r₁ = l₂ ++ c :: r₂) :
    l₁ = l₂ ∧ r₁ = r₂ := by
  have hsh : ∀ (l r : List α), (l ++ c :: r).reverse = r.reverse ++ c :: l.reverse := by
    intro l r
    simp
  have hrev := congrArg List.reverse h
  rw [hsh, hsh] at hrev
  have := append_cons_inj_left c r₁.reverse l₁.reverse r₂.reverse l₂.reverse
    (fun hm => h1 (List.mem_reverse.mp hm)) (fun hm => h2 (List.mem_reverse.mp hm)) hrev
  exact ⟨List.reverse_injective this.2, List.reverse_injective this.1⟩

theorem cacheKeyOf_inj (u₁ f₁ u₂ f₂ : String)
    (h1 : ':' ∉ f₁.data) (h2 : ':' ∉ f₂.data)
    (h : cacheKeyOf u₁ f₁ = cacheKeyOf u₂ f₂) : u₁ = u₂ ∧ f₁ = f₂ := by
  have hd : "semantic_cache:".data ++ (u₁.data ++ ':' :: f₁.data) =
      "semantic_cache:".data ++ (u₂.data ++ ':' :: f₂.data) := by
    have := congrArg String.data h
    simpa [cacheKeyOf, String.data_append] using this
  have hd2 := List.append_cancel_left hd
  have := append_cons_inj_right ':' u₁.data f₁.data u₂.data f₂.data h1 h2 hd2
  exact ⟨String.ext this.1, String.ext this.2⟩

theorem indexKeyOf_inj (u₁ u₂ : String) (h : indexKeyOf u₁ = indexKeyOf u₂) :
    u₁ = u₂ := by
  have hd : "semantic_index:".data ++ u₁.data = "semantic_index:".data ++ u₂.data := by
    have := congrArg String.data h
    simpa [indexKeyOf, String.data_append] using this
  exact String.ext (List.append_cancel_left hd)

theorem mem_saddList (l : List String) (x k : String) (h : k ∈ saddList l x) :
    k ∈ l ∨ k = x := by
  unfold saddList at h
  by_cases hc : l.contains x
  · rw [if_pos hc] at h
    exact .inl h
  · rw [if_neg hc] at h
    rcases List.mem_append.mp h with hm | hm
    · exact .inl hm
    · exact .inr (List.mem_singleton.mp hm)

/-! ## Well-formedness of reachable cache states -/

theorem WFState_empty : WFState emptyCache := by
  intro u k hk
  simp [emptyCache] at hk

theorem WFState_store (s : CacheState) (hash16 : String → String)
    (hwf : WFState s) (hhex : ∀ q2, ':' ∉ (hash16 q2).data)
    (now : ℝ) (t Q : String) (E : List ℝ) (R : Response) :
    WFState (store_semantic_cache hash16 now t Q E R s) := by
  intro u k hk
  unfold store_semantic_cache at hk
  dsimp only at hk
  by_cases hu : indexKeyOf u = indexKeyOf t
  · rw [if_pos hu] at hk
    have hut : u = t := indexKeyOf_inj u t hu
    subst hut
    rcases mem_saddList _ _ _ hk with hm | hm
    · exact hwf u k hm
    · exact ⟨hash16 Q, hm, hhex Q⟩
  · rw [if_neg hu] at hk
    exact hwf u k hk

theorem find_similar_snd_index (u q : String) (E : List ℝ) (s : CacheState) :
    ((find_similar_cached_query u q E s).2).index = s.index := by
  rw [find_similar_eq]
  by_cases h1 : liveEntries s u = []
  · rw [if_pos h1]
  · rw [if_neg h1]
    by_cases h3 : bestSimOf E s u > SEMANTIC_SIMILARITY_THRESHOLD
    · rw [if_pos h3]
    · rw [if_neg h3]

theorem WFState_find (s : CacheState) (u q : String) (E : List ℝ)
    (hwf : WFState s) : WFState (find_similar_cached_query u q E s).2 := by
  intro u2 k hk
  rw [find_similar_snd_index] at hk
  exact hwf u2 k hk

theorem WFState_clear (s : CacheState) (u : String) (hwf : WFState s) :
    WFState (clear_user_cache u s).2 := by
  intro u2 k hk
  unfold clear_user_cache at hk
  dsimp only at hk
  by_cases hu : indexKeyOf u2 = indexKeyOf u
  · rw [if_pos hu] at hk
    exact absurd hk (List.not_mem_nil k)
  · rw [if_neg hu] at hk
    exact hwf u2 k hk

theorem store_other_index (hash16 : String → String) (now : ℝ)
    (A q : String) (emb : List ℝ) (R : Response) (s : CacheState)
    (B : String) (hAB : A ≠ B) :
    (store_semantic_cache hash16 now A q emb R s).index (indexKeyOf B) =
      s.index (indexKeyOf B) := by
  unfold store_semantic_cache
  dsimp only
  rw [if_neg (fun h => hAB (indexKeyOf_inj B A h).symm)]

theorem store_other_records (hash16 : String → String) (now : ℝ)
    (A q : String) (emb : List ℝ) (R : Response) (s : CacheState)
    (hhex : ∀ q2, ':' ∉ (hash16 q2).data) (hwf : WFState s)
    (B : String) (hAB : A ≠ B) (k : String) (hk : k ∈ s.index (indexKeyOf B)) :
    (store_semantic_cache hash16 now A q emb R s).records k = s.records k := by
  obtain ⟨f, hkey, hdf⟩ := hwf B k hk
  unfold store_semantic_cache
  dsimp only
  rw [if_neg (fun h => by
    rw [hkey] at h
    exact hAB ((cacheKeyOf_inj B f A (hash16 q) hdf (hhex q) h).1.symm))]

/-! ## C4 — tenant isolation -/

/-- C4.  Tenant isolation: on any well-formed cache state (every index of a
tenant references only that tenant's colon-free-fingerprint keys, which
holds for every state reachable from the empty one), a record stored for
tenant `A` is invisible to a distinct tenant `B`: `B`'s lookup result is
exactly what it was before the store, `B`'s stats are unchanged, and
clearing `B` neither deletes `A`'s freshly stored record nor reports it in
the cleared count. -/
theorem tenant_isolation (s : CacheState) (hash16 : String → String)
    (hwf : WFState s) (hhex : ∀ q2, ':' ∉ (hash16 q2).data)
    (A B : String) (hAB : A ≠ B) (q Q2 : String) (E emb : List ℝ)
    (now : ℝ) (R : Response) :
    ((find_similar_cached_query B Q2 E
        (store_semantic_cache hash16 now A q emb R s)).1 =
      (find_similar_cached_query B Q2 E s).1) ∧
    (get_cache_stats B (store_semantic_cache hash16 now A q emb R s) =
      get_cache_stats B s) ∧
    ((clear_user_cache B (store_semantic_cache hash16 now A q emb R s)).2.records
        (cacheKeyOf A (hash16 q)) =
      some { query := q, embedding := emb, response := R, timestamp := now,
             user_id := A }) ∧
    ((clear_user_cache B (store_semantic_cache hash16 now A q emb R s)).1 =
      (clear_user_cache B s).1) := by
  have hidx := store_other_index hash16 now A q emb R s B hAB
  have hrecs := store_other_records hash16 now A q emb R s hhex hwf B hAB
  have hlive_eq : liveEntries (store_semantic_cache hash16 now A q emb R s) B =
      liveEntries s B := by
    unfold liveEntries
    rw [hidx]
    exact congrArg (List.filterMap id) (List.map_eq_map_iff.mpr hrecs)
  have hbs : bestSimOf E (store_semantic_cache hash16 now A q emb R s) B =
      bestSimOf E s B := by
    unfold bestSimOf bestIdxOf
    rw [hlive_eq]
  have hbe : bestEntryOf E (store_semantic_cache hash16 now A q emb R s) B =
      bestEntryOf E s B := by
    unfold bestEntryOf bestIdxOf
    rw [hlive_eq]
  refine ⟨?_, ?_, ?_, ?_⟩
  · simp only [find_similar_eq, apply_ite Prod.fst]
    rw [hlive_eq, hbs, hbe]
  · unfold get_cache_stats
    dsimp only
    rw [hidx, List.filterMap_congr hrecs]
  · unfold clear_user_cache
    dsimp only
    rw [hidx]
    have hnc : ¬(s.index (indexKeyOf B)).contains (cacheKeyOf A (hash16 q)) = true := by
      intro hc
      obtain ⟨f, hkey, hdf⟩ := hwf B _ (List.mem_of_elem_eq_true hc)
      exact hAB (cacheKeyOf_inj A (hash16 q) B f (hhex q) hdf hkey).1
    rw [if_neg hnc]
    exact store_records_self hash16 now A q emb R s
  · unfold clear_user_cache
    dsimp only
    rw [hidx]

/-- C4 witness: from the empty (well-formed) state, tenant "A" stores a
record; tenant "B" sees nothing change. -/
theorem tenant_isolation_witness :
    ((find_similar_cached_query "B" "q2" [(1 : ℝ)]
        (store_semantic_cache hashConst 0 "A" "q" [1] respFix emptyCache)).1 =
      (find_similar_cached_query "B" "q2" [(1 : ℝ)] emptyCache).1) ∧
    (get_cache_stats "B" (store_semantic_cache hashConst 0 "A" "q" [1] respFix emptyCache) =
      get_cache_stats "B" emptyCache) ∧
    ((clear_user_cache "B" (store_semantic_cache hashConst 0 "A" "q" [1] respFix emptyCache)).2.records
        (cacheKeyOf "A" (hashConst "q")) =
      some { query := "q", embedding := [1], response := respFix, timestamp := 0,
             user_id := "A" }) := by
  have h := tenant_isolation emptyCache hashConst WFState_empty
    (fun _ => show ':' ∉ ("ab" : String).data by decide)
    "A" "B" (by decide) "q" "q2" [1] [1] 0 respFix
  exact ⟨h.1, h.2.1, h.2.2.1⟩

/-! ## C9 — hit-count monotonicity (a misaligned write in the source) -/

theorem argmaxIdx_single (x : ℝ) : argmaxIdx [x] = 0 := by
  unfold argmaxIdx
  rw [if_pos rfl]

theorem argmaxIdx_zero_one : argmaxIdx [(0 : ℝ), 1] = 1 := by
  unfold argmaxIdx
  rw [if_neg (by simp : ¬([(1 : ℝ)] = []))]
  rw [argmaxIdx_single]
  rw [if_pos (by norm_num : ([(1 : ℝ)]).getD 0 0 > 0)]

/-- C9 (evaluation at the failing input).  `find_similar_cached_query`
writes the hit-count update to `cached_keys[best_idx]`, indexing the
*unfiltered* key list with the argmax over the *filtered* entries list.
With `k1` expired, the best entry (`k3`'s record, similarity 1) is written
back — with `hit_count + 1` — at key `k2`, overwriting `k2`'s record: its
hit count drops from 5 to 2 and its write-once fields (`query`,
`embedding`) are replaced by another record's values. -/
theorem hit_count_misaligned_write :
    (find_similar_cached_query "t" "q" [(0 : ℝ), 1] cacheBug).2.records "k2" =
      some { query := "q3", embedding := [0, 1], response := respFix, timestamp := 0,
             user_id := "t", hit_count := 2 } ∧
    cacheBug.records "k2" =
      some { query := "q2", embedding := [1, 0], response := respFix, timestamp := 0,
             user_id := "t", hit_count := 5 } ∧
    (2 : Nat) < 5 ∧ ("q3" : String) ≠ "q2" := by
  have hlive : liveEntries cacheBug "t" = [entryBug2, entryBug3] := rfl
  have hc20 : cosine_similarity [(0 : ℝ), 1] [1, 0] = 0 := by
    unfold cosine_similarity
    norm_num [dotList]
  have hc31 : cosine_similarity [(0 : ℝ), 1] [0, 1] = 1 := by
    apply cosine_self
    norm_num [dotList]
  have hmap : (liveEntries cacheBug "t").map
      (fun e => cosine_similarity [(0 : ℝ), 1] e.embedding) = [(0 : ℝ), 1] := by
    rw [hlive]
    rw [show ([entryBug2, entryBug3].map
        fun e => cosine_similarity [(0 : ℝ), 1] e.embedding) =
      [cosine_similarity [(0 : ℝ), 1] [1, 0],
       cosine_similarity [(0 : ℝ), 1] [0, 1]] from rfl]
    rw [hc20, hc31]
  have hbi : bestIdxOf [(0 : ℝ), 1] cacheBug "t" = 1 := by
    unfold bestIdxOf
    rw [hmap, argmaxIdx_zero_one]
  have hbs : bestSimOf [(0 : ℝ), 1] cacheBug "t" = 1 := by
    unfold bestSimOf
    rw [hmap, hbi]
    rfl
  have hbe : bestEntryOf [(0 : ℝ), 1] cacheBug "t" = entryBug3 := by
    unfold bestEntryOf
    rw [hlive, hbi]
    rfl
  have hne : liveEntries cacheBug "t" ≠ [] := by
    rw [hlive]
    simp
  have h3 : bestSimOf [(0 : ℝ), 1] cacheBug "t" > SEMANTIC_SIMILARITY_THRESHOLD := by
    rw [hbs]
    norm_num [SEMANTIC_SIMILARITY_THRESHOLD]
  have hfind := find_similar_eq "t" "q" [(0 : ℝ), 1] cacheBug
  rw [if_neg hne, if_pos h3] at hfind
  refine ⟨?_, rfl, by decide, by decide⟩
  rw [hfind]
  show (if "k2" = (cacheBug.index (indexKeyOf "t")).getD
          (bestIdxOf [(0 : ℝ), 1] cacheBug "t") "" then
        some { bestEntryOf [(0 : ℝ), 1] cacheBug "t" with
                hit_count := (bestEntryOf [(0 : ℝ), 1] cacheBug "t").hit_count + 1 }
      else cacheBug.records "k2") = _
  rw [hbi, hbe]
  rfl
